import Mathlib

/-!
# Cash Book ledger engine: a shallow embedding of `src/script.js`

The development models the `CashBook` class of `script.js`: the transaction
collection, the form submission handler `addTransaction`, `deleteTransaction`,
`clearAllTransactions`, `setFilter`, the time-window filter
`getTimeFilteredTransactions`, the totals of `updateSummary` and the list
rendering of `renderTransactions`; and the `Calculator` class with the
`useCalcResult` handler that hands its result to the form.

Modelling conventions.

* JavaScript `Date` values are time values: integers counting milliseconds
  since 1970-01-01T00:00:00Z.  The local time zone of the host is a `Zone`:
  the offset of local time from UTC as a function of the instant, and the
  offset with which a local time is read, so that a zone with daylight-saving
  transitions has local days of 23 or 25 hours.  `fixedZone tz` is the zone
  that stays `tz` minutes east of UTC.  The range limit of time values
  (8.64e15 ms) is not modelled.
* The calendar functions `YearFromTime`, `MonthFromTime`, `DateFromTime`,
  `WeekDay` and `MakeDay` of the ECMAScript specification are computed with
  the usual closed-form proleptic Gregorian day-number arithmetic.
* A transaction `date` is the value of a date input, `yyyy-mm-dd`; it is
  represented by its day number (days since 1970-01-01), because
  `new Date("yyyy-mm-dd")` is midnight UTC of that day.
* An amount is a finite double, given by its exact rational value;
  `parseFloat` of the amount field is an `Option ℚ`, `none` standing for `NaN`.
  The totals of `updateSummary` are JavaScript Numbers: every addition rounds
  to the nearest double.
* `localStorage`, the summary shown on the page, the rendered list and the
  `alert` dialogs are explicit fields of the state.
* The `Calculator` class works on JavaScript Numbers too.  A Number is `NaN`, an
  infinity or a finite double, given by its exact rational value; every
  arithmetic result is rounded to the nearest double, ties to even, with
  subnormals and overflow.  The sign of zero is not represented: `-0` prints
  as `0` and compares equal to `0`, and the calculator never divides by it.
  `parseFloat`, `Number(string)` and `Number.prototype.toString` follow the
  ECMAScript grammar and the shortest round-trip digits.
-/

namespace Ledger

/-! ## Data model -/

/-- The two values of the form's `type` selector. -/
inductive TxType where
  | income
  | expense
  deriving DecidableEq, Repr

/-- A transaction record, as built in `addTransaction` (lines 95-102). -/
structure Transaction where
  id : String
  description : String
  amount : ℚ
  type : TxType
  date : Int
  time : String
  deriving DecidableEq

/-- The filter selectors of the filter buttons (`data-filter`). -/
inductive Selector where
  | all
  | income
  | expense
  | daily
  | weekly
  | monthly
  | yearly
  deriving DecidableEq, Repr

/-- A JavaScript Number: `NaN`, an infinity with its sign, or a finite double
given by its exact value. -/
inductive JSNum where
  | nan
  | inf (negative : Bool)
  | fin (value : ℚ)
  deriving DecidableEq

/-- The three totals computed by `updateSummary` and written to the page:
JavaScript Numbers. -/
structure Summary where
  totalIncome : JSNum
  totalExpense : JSNum
  balance : JSNum
  deriving DecidableEq

/-- The local time zone of the host: the function `LocalTZA(t, isUTC)` of
ECMAScript, in milliseconds.  `utcOffset t` is the offset of local time from
UTC in force at the instant `t` (`isUTC` true); `localOffset t` is the offset
with which the local time value `t` is read (`isUTC` false).  The two differ
around a daylight-saving transition. -/
structure Zone where
  utcOffset : Int → Int
  localOffset : Int → Int

/-- The values read from the transaction form by `addTransaction`
(lines 81-85).  `amount` is the result of `parseFloat`; `none` is `NaN`. -/
structure Form where
  description : String
  time : String
  amount : Option ℚ
  type : TxType
  date : Int

/-- The `CashBook` object together with the parts of its environment it
writes: `storage` is the `cashbook_transactions` entry of `localStorage`,
`summary` the totals shown on the page, `listView` the rendered list and
`alerts` the messages shown with `alert`, oldest first. -/
structure CashBook where
  transactions : List Transaction
  currentFilter : Selector
  currentEditingId : Option String
  storage : List Transaction
  summary : Summary
  listView : List Transaction
  alerts : List String

namespace CashBook

/-! ## ECMAScript date arithmetic -/

/-- Milliseconds per day. -/
def msPerDay : Int := 86400000

/-- ECMAScript `Day(t)`: the day number of a time value (rounding down). -/
def Day (t : Int) : Int := t / msPerDay

/-- Day number (days since 1970-01-01) of the civil date with year `y`,
month `mn` (0 = January .. 11 = December) and day of month `d`.  The day of
month enters linearly, so values outside the month roll over. -/
def daysFromCivil (y mn d : Int) : Int :=
  let y1 := if mn ≤ 1 then y - 1 else y
  let era := y1 / 400
  let yoe := y1 - era * 400
  let mp := if mn ≤ 1 then mn + 10 else mn - 2
  let doy := (153 * mp + 2) / 5 + d - 1
  let doe := yoe * 365 + yoe / 4 - yoe / 100 + doy
  era * 146097 + doe - 719468

/-- Civil date `(year, month, day of month)` of a day number; the month is
0-based as in JavaScript.  The day is located in its 400-year era, then in a
century, a four-year cycle and a year (years start on 1 March internally). -/
def civilFromDays (z : Int) : Int × Int × Int :=
  let z1 := z + 719468
  let era := z1 / 146097
  let doe := z1 - era * 146097
  let n100 := if doe / 36524 < 3 then doe / 36524 else 3
  let r2 := doe - n100 * 36524
  let n4 := r2 / 1461
  let r3 := r2 - n4 * 1461
  let n1 := if r3 / 365 < 3 then r3 / 365 else 3
  let doy := r3 - n1 * 365
  let yoe := n100 * 100 + n4 * 4 + n1
  let mp := (5 * doy + 2) / 153
  let d := doy - (153 * mp + 2) / 5 + 1
  let mn := if mp < 10 then mp + 2 else mp - 10
  (if mn ≤ 1 then yoe + era * 400 + 1 else yoe + era * 400, mn, d)

/-- ECMAScript `YearFromTime`. -/
def YearFromTime (t : Int) : Int := (civilFromDays (Day t)).1

/-- ECMAScript `MonthFromTime` (0-based). -/
def MonthFromTime (t : Int) : Int := (civilFromDays (Day t)).2.1

/-- ECMAScript `DateFromTime` (day of month, 1-based). -/
def DateFromTime (t : Int) : Int := (civilFromDays (Day t)).2.2

/-- ECMAScript `WeekDay`: 0 = Sunday .. 6 = Saturday. -/
def WeekDay (t : Int) : Int := (Day t + 4) % 7

/-- ECMAScript `MakeDay(year, month, date)`: months outside 0..11 carry into
the year, days outside the month roll over. -/
def MakeDay (year month date : Int) : Int :=
  daysFromCivil (year + month / 12) (month % 12) 1 + date - 1

/-- ECMAScript `LocalTime(t)`: the local time value of the instant `t`, with
the offset in force at that instant. -/
def LocalTime (tz : Zone) (t : Int) : Int := t + tz.utcOffset t

/-- ECMAScript `UTC(t)`: the instant of the local time value `t`, with the
offset that applies to that local time. -/
def UTC (tz : Zone) (t : Int) : Int := t - tz.localOffset t

/-- Offset of local time from UTC in milliseconds, for an offset of `tz` minutes
east of UTC. -/
def localTZA (tz : Int) : Int := tz * 60000

/-- The zone that is `tz` minutes east of UTC all year round. -/
def fixedZone (tz : Int) : Zone :=
  { utcOffset := fun _ => localTZA tz, localOffset := fun _ => localTZA tz }

/-- `new Date(year, month, date)`: local midnight of the given civil date, as a
time value, with the offset that applies to that local midnight.  Years 0..99
denote 1900..1999, as the constructor specifies. -/
def newDate (tz : Zone) (year month date : Int) : Int :=
  let yr := if 0 ≤ year ∧ year ≤ 99 then 1900 + year else year
  UTC tz (MakeDay yr month date * msPerDay)

/-- `Date.prototype.getFullYear`. -/
def getFullYear (tz : Zone) (t : Int) : Int := YearFromTime (LocalTime tz t)

/-- `Date.prototype.getMonth`. -/
def getMonth (tz : Zone) (t : Int) : Int := MonthFromTime (LocalTime tz t)

/-- `Date.prototype.getDate`. -/
def getDate (tz : Zone) (t : Int) : Int := DateFromTime (LocalTime tz t)

/-- `Date.prototype.getDay`. -/
def getDay (tz : Zone) (t : Int) : Int := WeekDay (LocalTime tz t)

/-- The zones in which local midnights delimit the local days: the local day
of an instant is `d` or later exactly from `new Date` of day `d` on (so the
local date never goes back, and the constructor's local midnight is the first
instant of its day), and every day begins before the next one (no date is
skipped).  Every fixed offset is of this kind, and so is a zone whose clocks
are set back or forward within a day. -/
def Regular (tz : Zone) : Prop :=
  (∀ d t : Int, d ≤ Day (LocalTime tz t) ↔ UTC tz (d * msPerDay) ≤ t) ∧
  ∀ d : Int, UTC tz (d * msPerDay) < UTC tz ((d + 1) * msPerDay)

/-- `new Date(s)` for a date-only string `s` whose day number is `d`:
midnight UTC of that day. -/
def parseDate (d : Int) : Int := d * msPerDay

/-- Day number of the date written `y-m-d` (month 1-based, as in the string). -/
def isoDate (y m d : Int) : Int := MakeDay y (m - 1) d

/-! ## Strings and truthiness -/

/-- The characters removed by `String.prototype.trim`: ECMAScript white space
and line terminators. -/
def isTrimChar (c : Char) : Bool :=
  let n := c.toNat
  n = 9 || n = 10 || n = 11 || n = 12 || n = 13 || n = 32 || n = 160 || n = 5760 ||
    (8192 ≤ n && n ≤ 8202) || n = 8232 || n = 8233 || n = 8239 || n = 8287 ||
    n = 12288 || n = 65279

/-- `String.prototype.trim`. -/
def jsTrim (s : String) : String :=
  String.mk ((s.data.dropWhile isTrimChar).reverse.dropWhile isTrimChar).reverse

/-- Truthiness of `this.currentEditingId`: `null` and the empty string are
falsy, every other string is truthy. -/
def truthy : Option String → Bool
  | none => false
  | some id => decide (id ≠ "")

end CashBook

/-! ## JavaScript Numbers -/

namespace JSNum

/-- The binary logarithm of `n`, rounded down, computed with `fuel` halvings
at most. -/
def log2Aux : Nat → Nat → Nat
  | 0, _ => 0
  | fuel + 1, n => if n < 2 then 0 else log2Aux fuel (n / 2) + 1

/-- The binary logarithm of a positive natural number, rounded down. -/
def log2 (n : Nat) : Nat := log2Aux n n

/-- The binary exponent of the positive rational `N / D`: the integer `e` with
`2 ^ e ≤ N / D < 2 ^ (e + 1)`. -/
def ilog2 (N D : Nat) : Int :=
  let e0 : Int := (log2 N : Int) - (log2 D : Int)
  if (if 0 ≤ e0 then D * 2 ^ e0.toNat ≤ N else D ≤ N * 2 ^ (-e0).toNat) then e0 else e0 - 1

/-- The double nearest to the positive rational `N / D`, ties to even; `none`
when the result overflows.  The unit in the last place is `2 ^ (e - 52)`, with
`e` the binary exponent, not below `-1022` (subnormal numbers). -/
def roundNearest (N D : Nat) : Option ℚ :=
  let e := ilog2 N D
  let s : Int := (if e < -1022 then -1022 else e) - 52
  let num := if 0 ≤ s then N else N * 2 ^ (-s).toNat
  let den := if 0 ≤ s then D * 2 ^ s.toNat else D
  let f := num / den
  let r := num % den
  let m := if 2 * r < den then f else if den < 2 * r then f + 1
    else if f % 2 = 0 then f else f + 1
  if 0 ≤ s then
    if 2 ^ 1024 ≤ m * 2 ^ s.toNat then none else some ((m * 2 ^ s.toNat : Nat) : ℚ)
  else some (mkRat m (2 ^ (-s).toNat))

/-- The Number value of a rational: the result of rounding an exact result to a
double. -/
def roundDouble (q : ℚ) : JSNum :=
  if q.num = 0 then fin 0
  else match roundNearest q.num.natAbs q.den with
    | none => inf (decide (q.num < 0))
    | some v => fin (if q.num < 0 then -v else v)

/-- Number addition, `x + y`. -/
def add : JSNum → JSNum → JSNum
  | fin x, fin y => roundDouble (x + y)
  | inf a, inf b => if a = b then inf a else nan
  | inf a, fin _ => inf a
  | fin _, inf b => inf b
  | _, _ => nan

/-- Unary minus. -/
def neg : JSNum → JSNum
  | fin x => fin (-x)
  | inf a => inf (!a)
  | nan => nan

/-- Number subtraction, `x - y`. -/
def sub (x y : JSNum) : JSNum := add x (neg y)

/-- Number multiplication, `x * y`. -/
def mul : JSNum → JSNum → JSNum
  | fin x, fin y => roundDouble (x * y)
  | inf a, inf b => inf (a != b)
  | inf a, fin y => if y = 0 then nan else inf (a != decide (y < 0))
  | fin x, inf b => if x = 0 then nan else inf (decide (x < 0) != b)
  | _, _ => nan

/-- Number division, `x / y`.  A zero divisor counts as `+0`. -/
def div : JSNum → JSNum → JSNum
  | fin x, fin y =>
      if y = 0 then (if x = 0 then nan else inf (decide (x < 0))) else roundDouble (x / y)
  | inf a, fin y => inf (a != decide (y < 0))
  | fin _, inf _ => fin 0
  | _, _ => nan

/-- `Math.round`: the nearest integer, halves going up. -/
def round : JSNum → JSNum
  | fin x => fin ((⌊x + 1 / 2⌋ : Int) : ℚ)
  | x => x

/-- The test `isNaN(x)` on a Number. -/
def isNaN : JSNum → Bool
  | nan => true
  | _ => false

/-- The power `10 ^ e` for an integer exponent. -/
def pow10 (e : Int) : ℚ :=
  if 0 ≤ e then ((10 ^ e.toNat : Nat) : ℚ) else mkRat 1 (10 ^ (-e).toNat)

/-- The value of a sequence of decimal digits. -/
def digitsVal (cs : List Char) : Nat :=
  cs.foldl (fun acc c => 10 * acc + (c.toNat - 48)) 0

/-- The longest prefix of `cs` that is a `StrDecimalLiteral` (sign, `Infinity`
or digits with an optional fraction and exponent): its Number value and the
characters left over; `none` when no prefix is one. -/
def scanDecimal (cs : List Char) : Option (JSNum × List Char) :=
  let negative := decide (cs.head? = some '-')
  let cs1 := if cs.head? = some '-' ∨ cs.head? = some '+' then cs.tail else cs
  if cs1.take 8 = ['I', 'n', 'f', 'i', 'n', 'i', 't', 'y'] then some (inf negative, cs1.drop 8)
  else
    let ip := cs1.takeWhile Char.isDigit
    let r1 := cs1.dropWhile Char.isDigit
    let hasDot := decide (r1.head? = some '.')
    let fp := if hasDot then r1.tail.takeWhile Char.isDigit else []
    let r2 := if hasDot then r1.tail.dropWhile Char.isDigit else r1
    if ip = [] ∧ fp = [] then none
    else
      let hasE := decide (r2.head? = some 'e' ∨ r2.head? = some 'E')
      let r3 := r2.tail
      let eneg := decide (r3.head? = some '-')
      let r4 := if r3.head? = some '-' ∨ r3.head? = some '+' then r3.tail else r3
      let ed := r4.takeWhile Char.isDigit
      let useE := hasE && !ed.isEmpty
      let ex : Int :=
        if useE then (if eneg then -(digitsVal ed : Int) else (digitsVal ed : Int)) else 0
      let rest := if useE then r4.dropWhile Char.isDigit else r2
      let q : ℚ := (digitsVal (ip ++ fp) : ℚ) * pow10 (ex - (fp.length : Int))
      some (roundDouble (if negative then -q else q), rest)

/-- The global `parseFloat(string)`: leading white space is skipped, the
longest numeric prefix is read, anything after it is ignored. -/
def parseFloat (s : String) : JSNum :=
  match scanDecimal (s.data.dropWhile CashBook.isTrimChar) with
  | some (v, _) => v
  | none => nan

/-- The value of a digit of a hexadecimal, octal or binary literal. -/
def radixDigit (c : Char) : Nat :=
  if c.isDigit then c.toNat - 48
  else if 97 ≤ c.toNat ∧ c.toNat ≤ 102 then c.toNat - 87
  else if 65 ≤ c.toNat ∧ c.toNat ≤ 70 then c.toNat - 55
  else 16

/-- The Number value of the digits of a literal in base `b`, `NaN` when there
is no digit or a character is not a digit of the base. -/
def radixLiteral (b : Nat) (cs : List Char) : JSNum :=
  if cs ≠ [] ∧ cs.all (fun c => decide (radixDigit c < b)) then
    roundDouble ((cs.foldl (fun acc c => b * acc + radixDigit c) 0 : Nat) : ℚ)
  else nan

/-- A whole string as a decimal literal. -/
def decimalLiteral (cs : List Char) : JSNum :=
  match scanDecimal cs with
  | some (v, []) => v
  | _ => nan

/-- The conversion `Number(string)` (`StringToNumber`): the trimmed string must
be empty or a numeric literal as a whole. -/
def toNumber (s : String) : JSNum :=
  match (CashBook.jsTrim s).data with
  | [] => fin 0
  | '0' :: x :: ds =>
      if x = 'x' ∨ x = 'X' then radixLiteral 16 ds
      else if x = 'o' ∨ x = 'O' then radixLiteral 8 ds
      else if x = 'b' ∨ x = 'B' then radixLiteral 2 ds
      else decimalLiteral ('0' :: x :: ds)
  | cs => decimalLiteral cs

/-- The decimal exponent of a positive rational: the `n` with
`10 ^ (n - 1) ≤ q < 10 ^ n`. -/
def decExp (q : ℚ) : Int :=
  let a : Int := ((Nat.toDigits 10 q.num.natAbs).length : Int) -
    ((Nat.toDigits 10 q.den).length : Int)
  if pow10 a ≤ q then a + 1 else a

/-- The pairs `(n, s)` with `s` of `k` digits whose value `s * 10 ^ (n - k)`
has the Number value `q`. -/
def candidates (q : ℚ) (n : Int) (k : Nat) : List (Int × Nat) :=
  [n, n + 1].flatMap fun n1 =>
    let lo := (⌊q / pow10 (n1 - k)⌋ : Int).toNat
    (([lo, lo + 1] : List Nat).filter fun (s : Nat) =>
      decide (10 ^ (k - 1) ≤ s ∧ s < 10 ^ k ∧
        roundDouble ((s : ℚ) * pow10 (n1 - k)) = fin q)).map fun (s : Nat) => (n1, s)

/-- Of two candidates the one closer to `q`, the even one when they are equally
close. -/
def better (q : ℚ) (k : Nat) (x y : Int × Nat) : Int × Nat :=
  let dx := |(x.2 : ℚ) * pow10 (x.1 - k) - q|
  let dy := |(y.2 : ℚ) * pow10 (y.1 - k) - q|
  if dx < dy then x else if dy < dx then y else if x.2 % 2 = 0 then x else y

/-- The triple `(n, k, s)` of `Number::toString`: the fewest digits `k` such
that some `s` of `k` digits has the Number value `q`. -/
def shortest (q : ℚ) : Int × Nat × Nat :=
  let n := decExp q
  match (List.range 17).findSome? (fun i =>
      match candidates q n (i + 1) with
      | [] => none
      | c :: cs => some (i + 1, cs.foldl (better q (i + 1)) c)) with
  | some (k, n1, s) => (n1, k, s)
  | none => (n, 1, 0)

/-- The layout of `Number::toString` for the digits `s` (there are `k`) and the
decimal exponent `n`: positional up to `10 ^ 21` and down to `10 ^ -6`,
exponential otherwise. -/
def formatDigits (n : Int) (k : Nat) (s : Nat) : String :=
  let ds := Nat.toDigits 10 s
  if (k : Int) ≤ n ∧ n ≤ 21 then String.mk (ds ++ List.replicate (n - k).toNat '0')
  else if 0 < n ∧ n ≤ 21 then String.mk (ds.take n.toNat ++ '.' :: ds.drop n.toNat)
  else if -6 < n ∧ n ≤ 0 then String.mk ('0' :: '.' :: List.replicate (-n).toNat '0' ++ ds)
  else
    let e := n - 1
    let es := (if e < 0 then '-' else '+') :: Nat.toDigits 10 e.natAbs
    if k = 1 then String.mk (ds ++ 'e' :: es)
    else String.mk (ds.take 1 ++ '.' :: ds.drop 1 ++ 'e' :: es)

/-- `Number::toString` of a positive double.  An integer below `2 ^ 53` prints
as its decimal digits (its shortest digits are its digits without the trailing
zeros, which the positional layout puts back). -/
def posToString (q : ℚ) : String :=
  if q.den = 1 ∧ q.num < 2 ^ 53 then Nat.repr q.num.toNat
  else formatDigits (shortest q).1 (shortest q).2.1 (shortest q).2.2

/-- `Number.prototype.toString()`. -/
def toString : JSNum → String
  | nan => "NaN"
  | inf false => "Infinity"
  | inf true => "-Infinity"
  | fin q => if q = 0 then "0" else if q < 0 then "-" ++ posToString (-q) else posToString q

end JSNum

namespace CashBook

/-! ## The time-window filter -/

/-- The pair `(startDate, endDate)` computed by the `switch` of
`getTimeFilteredTransactions` (lines 171-192) from `now = new Date()`; `none`
is the `default` branch. -/
def timeWindow (tz : Zone) (now : Int) : Selector → Option (Int × Int)
  | Selector.daily =>
      some (newDate tz (getFullYear tz now) (getMonth tz now) (getDate tz now),
            newDate tz (getFullYear tz now) (getMonth tz now) (getDate tz now + 1))
  | Selector.weekly =>
      let dayOfWeek := getDay tz now
      let diffToMonday := if dayOfWeek = 0 then -6 else 1 - dayOfWeek
      let startDate :=
        newDate tz (getFullYear tz now) (getMonth tz now) (getDate tz now + diffToMonday)
      some (startDate,
            newDate tz (getFullYear tz startDate) (getMonth tz startDate)
              (getDate tz startDate + 7))
  | Selector.monthly =>
      some (newDate tz (getFullYear tz now) (getMonth tz now) 1,
            newDate tz (getFullYear tz now) (getMonth tz now + 1) 1)
  | Selector.yearly =>
      some (newDate tz (getFullYear tz now) 0 1,
            newDate tz (getFullYear tz now + 1) 0 1)
  | _ => none

/-- `getTimeFilteredTransactions(timeFilter)` (lines 167-198) on the collection
`ts`, at the instant `now` in the zone `tz`. -/
def getTimeFilteredTransactions (tz : Zone) (now : Int) (timeFilter : Selector)
    (ts : List Transaction) : List Transaction :=
  match timeWindow tz now timeFilter with
  | none => ts
  | some (startDate, endDate) =>
      ts.filter (fun transaction =>
        decide (startDate ≤ parseDate transaction.date ∧ parseDate transaction.date < endDate))

/-- `getFilteredTransactions()` (lines 142-165).  The second component tells
whether the returned array is the array `this.transactions` itself: the
`default` branch returns it without copying, `filter` builds a new array. -/
def getFilteredTransactions (tz : Zone) (now : Int) (s : CashBook) : List Transaction × Bool :=
  match s.currentFilter with
  | Selector.income => (s.transactions.filter (fun t => decide (t.amount > 0)), false)
  | Selector.expense => (s.transactions.filter (fun t => decide (t.amount < 0)), false)
  | Selector.daily => (getTimeFilteredTransactions tz now Selector.daily s.transactions, false)
  | Selector.weekly => (getTimeFilteredTransactions tz now Selector.weekly s.transactions, false)
  | Selector.monthly => (getTimeFilteredTransactions tz now Selector.monthly s.transactions, false)
  | Selector.yearly => (getTimeFilteredTransactions tz now Selector.yearly s.transactions, false)
  | Selector.all => (s.transactions, true)

/-! ## Summary -/

/-- The totals computed in `updateSummary` (lines 206-214) from
`transactionsToUse`: each `reduce` starts from `0` and adds the amounts from
left to right in Number arithmetic, so every partial sum is rounded to a
double; the balance is the Number difference of the two totals. -/
def summarize (transactionsToUse : List Transaction) : Summary :=
  let totalIncome := (transactionsToUse.filter (fun t => decide (t.amount > 0))).foldl
    (fun sum t => JSNum.add sum (JSNum.fin t.amount)) (JSNum.fin 0)
  let totalExpense := (transactionsToUse.filter (fun t => decide (t.amount < 0))).foldl
    (fun sum t => JSNum.add sum (JSNum.fin |t.amount|)) (JSNum.fin 0)
  { totalIncome := totalIncome, totalExpense := totalExpense,
    balance := JSNum.sub totalIncome totalExpense }

/-- The list `transactionsToUse` of `updateSummary` (lines 202-204). -/
def transactionsToUse (tz : Zone) (now : Int) (s : CashBook) : List Transaction :=
  if s.currentFilter ∈ [Selector.daily, Selector.weekly, Selector.monthly, Selector.yearly]
  then getTimeFilteredTransactions tz now s.currentFilter s.transactions
  else s.transactions

/-- `updateSummary()` (lines 200-228): recompute the totals and show them. -/
def updateSummary (tz : Zone) (now : Int) (s : CashBook) : CashBook :=
  { s with summary := summarize (transactionsToUse tz now s) }

/-! ## Rendering and persistence -/

/-- The order produced by the comparator of line 240,
`(a, b) => new Date(b.date) - new Date(a.date)`: `a` may stand before `b`
when the comparator is not positive. -/
def dateDesc (a b : Transaction) : Prop := parseDate b.date - parseDate a.date ≤ 0

instance : DecidableRel dateDesc := fun a b =>
  inferInstanceAs (Decidable (parseDate b.date - parseDate a.date ≤ 0))

/-- `Array.prototype.sort` with the comparator of line 240: a stable sort by
date, latest first. -/
def sortByDateDesc (ts : List Transaction) : List Transaction :=
  ts.insertionSort dateDesc

/-- `renderTransactions()` (lines 230-243).  `sort` works in place, so when
the filtered array is `this.transactions` itself the collection is sorted
too. -/
def renderTransactions (tz : Zone) (now : Int) (s : CashBook) : CashBook :=
  let filteredTransactions := getFilteredTransactions tz now s
  if filteredTransactions.1.length = 0 then { s with listView := [] }
  else if filteredTransactions.2 then
    { s with transactions := sortByDateDesc filteredTransactions.1,
             listView := sortByDateDesc filteredTransactions.1 }
  else { s with listView := sortByDateDesc filteredTransactions.1 }

/-- `saveTransactions()` (lines 298-300). -/
def saveTransactions (s : CashBook) : CashBook :=
  { s with storage := s.transactions }

/-! ## Operations -/

/-- The message of the validation `alert` (line 91). -/
def invalidMessage : String := "Please enter valid transaction details."

/-- `editTransaction(id)` (lines 68-78); filling the form is left to the
caller, who passes the form values to `addTransaction`. -/
def editTransaction (id : String) (s : CashBook) : CashBook :=
  match s.transactions.find? (fun t => decide (t.id = id)) with
  | some _ => { s with currentEditingId := some id }
  | none => s

/-- The record built at lines 95-102 from the form values. -/
def mkTransaction (now : Nat) (editingId : Option String) (description : String)
    (amount : ℚ) (form : Form) : Transaction :=
  { id := if truthy editingId then editingId.getD "" else toString now,
    description := description,
    amount := if form.type = TxType.expense then -|amount| else |amount|,
    type := form.type,
    date := form.date,
    time := form.time }

/-- `addTransaction()` (lines 80-117), run at the instant `now` (milliseconds
since the epoch, the value of `Date.now()`) with the form values `form`. -/
def addTransaction (tz : Zone) (now : Nat) (form : Form) (s : CashBook) : CashBook :=
  let description := jsTrim form.description
  let reject : CashBook := { s with alerts := s.alerts ++ [invalidMessage] }
  match form.amount with
  | none => reject
  | some amount =>
    if description = "" ∨ amount ≤ 0 then reject
    else
      let transaction := mkTransaction now s.currentEditingId description amount form
      let s1 : CashBook :=
        if truthy s.currentEditingId then
          { s with
            transactions := s.transactions.map
              (fun t => if some t.id = s.currentEditingId then transaction else t),
            currentEditingId := none }
        else { s with transactions := s.transactions ++ [transaction] }
      renderTransactions tz now (updateSummary tz now (saveTransactions s1))

/-- `deleteTransaction(id)` (lines 119-126); `confirmed` is the answer to the
`confirm` dialog. -/
def deleteTransaction (tz : Zone) (now : Int) (confirmed : Bool) (id : String) (s : CashBook) :
    CashBook :=
  if confirmed then
    renderTransactions tz now (updateSummary tz now (saveTransactions
      { s with transactions := s.transactions.filter (fun t => decide (t.id ≠ id)) }))
  else s

/-- `setFilter(filter)` (lines 128-140). -/
def setFilter (tz : Zone) (now : Int) (filter : Selector) (s : CashBook) : CashBook :=
  renderTransactions tz now { s with currentFilter := filter }

/-- `clearAllTransactions()` (lines 283-296). -/
def clearAllTransactions (tz : Zone) (now : Int) (confirmed : Bool) (s : CashBook) : CashBook :=
  if s.transactions.length = 0 then
    { s with alerts := s.alerts ++ ["No transactions to clear."] }
  else if confirmed then
    let s1 := renderTransactions tz now (updateSummary tz now (saveTransactions
      { s with transactions := [] }))
    { s1 with alerts := s1.alerts ++ ["All transactions have been cleared successfully."] }
  else s

/-- The constructor (lines 2-22): load the stored collection, give a record
without a time the time `00:00`, start with the selector `all` and no record
being edited, then show the totals and the list. -/
def construct (tz : Zone) (now : Int) (stored : List Transaction) : CashBook :=
  renderTransactions tz now (updateSummary tz now
    { transactions := stored.map (fun transaction =>
        if transaction.time = "" then { transaction with time := "00:00" } else transaction),
      currentFilter := Selector.all,
      currentEditingId := none,
      storage := stored,
      summary :=
        { totalIncome := JSNum.fin 0, totalExpense := JSNum.fin 0, balance := JSNum.fin 0 },
      listView := [],
      alerts := [] })

/-- What every completed rendering establishes: under the selector `all` the
collection is sorted by date, latest first. -/
def RenderInv (s : CashBook) : Prop :=
  s.currentFilter = Selector.all → s.transactions.Sorted dateDesc

/-- The states the page can be in: the constructor's state and every state
obtained from it by the event handlers, in a zone `tz`. -/
inductive Reachable (tz : Zone) : CashBook → Prop where
  | construct (now : Int) (stored : List Transaction) : Reachable tz (construct tz now stored)
  | edit (id : String) {s : CashBook} :
      Reachable tz s → Reachable tz (editTransaction id s)
  | add (now : Nat) (form : Form) {s : CashBook} :
      Reachable tz s → Reachable tz (addTransaction tz now form s)
  | delete (now : Int) (confirmed : Bool) (id : String) {s : CashBook} :
      Reachable tz s → Reachable tz (deleteTransaction tz now confirmed id s)
  | filter (now : Int) (f : Selector) {s : CashBook} :
      Reachable tz s → Reachable tz (setFilter tz now f s)
  | clear (now : Int) (confirmed : Bool) {s : CashBook} :
      Reachable tz s → Reachable tz (clearAllTransactions tz now confirmed s)

/-! ## Concrete inputs used in the examples -/

/-- The instant at which summer time ended in the Azores in 2024:
2024-10-27T01:00:00Z. -/
def azoresSummerEnd : Int := 1729990800000

/-- The zone `Atlantic/Azores` around the end of summer time 2024: local time
is UTC until 2024-10-27 01:00 UTC, when the clocks go back from 01:00 to 00:00,
and one hour behind UTC from then on.  The local times from 00:00 to 01:00 of
that day occur twice and are read with the earlier offset, as ECMAScript
specifies.  (The zone's other transitions, before 2024-03-31 and after
2025-03-30, are left out.) -/
def azores : Zone :=
  { utcOffset := fun t => if t < azoresSummerEnd then 0 else -3600000,
    localOffset := fun t => if t < azoresSummerEnd then 0 else -3600000 }

/-- A book with no records, as the constructor leaves it on empty storage. -/
def emptyBook : CashBook :=
  { transactions := [], currentFilter := Selector.all, currentEditingId := none,
    storage := [],
    summary :=
      { totalIncome := JSNum.fin 0, totalExpense := JSNum.fin 0, balance := JSNum.fin 0 },
    listView := [], alerts := [] }

/-- The form of the end-to-end example: Coffee, 50, expense, 2024-03-10. -/
def coffeeForm : Form :=
  { description := "Coffee", time := "09:30", amount := some 50, type := TxType.expense,
    date := 19792 }

/-- The record the end-to-end example creates at the instant `1710060000000`. -/
def coffee : Transaction :=
  { id := "1710060000000", description := "Coffee", amount := -50, type := TxType.expense,
    date := 19792, time := "09:30" }

/-- An older record, dated 2024-01-01. -/
def rent : Transaction :=
  { id := "1704100000000", description := "Rent", amount := -12000, type := TxType.expense,
    date := 19723, time := "10:00" }

/-- A record dated 2024-03-11. -/
def lunch : Transaction :=
  { id := "1710150000000", description := "Lunch", amount := -120, type := TxType.expense,
    date := 19793, time := "13:00" }

/-- An income of 0.1: the amount is the double nearest to 0.1, which is what
`parseFloat` reads from `0.1`. -/
def tenth : Transaction :=
  { id := "1710200000000", description := "Interest",
    amount := 3602879701896397 / 36028797018963968, type := TxType.income,
    date := 19794, time := "08:00" }

/-- An income of 0.2: the amount is the double nearest to 0.2. -/
def fifth : Transaction :=
  { id := "1710200000001", description := "Refund",
    amount := 3602879701896397 / 18014398509481984, type := TxType.income,
    date := 19794, time := "08:05" }

/-- The record `coffee` after the edit made with `editedForm`. -/
def coffeeEdited : Transaction :=
  { id := "1710060000000", description := "Coffee", amount := -60, type := TxType.expense,
    date := 19716, time := "09:30" }

/-- The form of an edit of `coffee`: amount 60, date 2023-12-25. -/
def editedForm : Form :=
  { description := "Coffee", time := "09:30", amount := some 60, type := TxType.expense,
    date := 19716 }

/-- The form that creates `rent`. -/
def rentForm : Form :=
  { description := "Rent", time := "10:00", amount := some 12000, type := TxType.expense,
    date := 19723 }

/-- The form that creates `lunch`. -/
def lunchForm : Form :=
  { description := "Lunch", time := "13:00", amount := some 120, type := TxType.expense,
    date := 19793 }

/-- A state in which the editing id names no record and the stored copy is not
in the collection's order: the page opens on `[coffee]`, `yearly` is selected,
`rent` and `lunch` are created, `coffee` is opened for editing and deleted,
and `all` is selected, which sorts the collection without saving it. -/
def staleEditBook : CashBook :=
  setFilter (fixedZone 330) 1710200000000 Selector.all
    (deleteTransaction (fixedZone 330) 1710190000000 true "1710060000000"
      (editTransaction "1710060000000"
        (addTransaction (fixedZone 330) 1710150000000 lunchForm
          (addTransaction (fixedZone 330) 1704100000000 rentForm
            (setFilter (fixedZone 330) 1704000000000 Selector.yearly
              (construct (fixedZone 330) 1704000000000 [coffee]))))))

/-- A form with a blank description. -/
def blankForm : Form :=
  { description := "  ", time := "09:30", amount := some 50, type := TxType.expense,
    date := 19792 }

end CashBook

/-! ## The calculator -/

/-- The operator keys `+`, `-`, `*` and `/`. -/
inductive Op where
  | add
  | sub
  | mul
  | div
  deriving DecidableEq, Repr

/-- The buttons of the calculator (`data-value`). -/
inductive Key where
  | digit (d : Fin 10)
  | decimal
  | clear (ac : Bool)
  | sign
  | percent
  | equals
  | op (o : Op)

/-- The `Calculator` object; `display` is the value of the `calcDisplay` input
and `alerts` the messages shown with `alert`, oldest first. -/
structure Calculator where
  currentInput : String
  previousInput : String
  operation : Option Op
  shouldResetDisplay : Bool
  display : String
  alerts : List String
  deriving DecidableEq

namespace Calculator

/-- The character of a digit key. -/
def digitChar (d : Fin 10) : Char := Char.ofNat (48 + d.val)

/-- A word character of a regular expression, `\w`. -/
def isWordChar (c : Char) : Bool := c.isAlphanum || c = '_'

/-- The replacement of `formatNumberWithCommas` (line 739) on the characters
after `prev`: a comma goes in at every position matched by
`\B(?=(\d{3})+(?!\d))`, that is after a word character and before a run of
digits whose length is a positive multiple of three. -/
def insertCommas : Option Char → List Char → List Char
  | _, [] => []
  | prev, c :: rest =>
      let run := ((c :: rest).takeWhile Char.isDigit).length
      let afterWord := match prev with
        | some p => isWordChar p
        | none => false
      if afterWord && decide (0 < run) && decide (run % 3 = 0)
      then ',' :: c :: insertCommas (some c) rest
      else c :: insertCommas (some c) rest

/-- `formatNumberWithCommas(number)` (lines 738-740). -/
def formatNumberWithCommas (number : String) : String :=
  String.mk (insertCommas none number.data)

/-- `updateDisplay()` (lines 725-736): with a decimal point only the part
before the first point is grouped, the rest is joined back unchanged. -/
def updateDisplay (s : Calculator) : Calculator :=
  let displayValue := s.currentInput
  if '.' ∈ displayValue.data then
    { s with display :=
        formatNumberWithCommas (String.mk (displayValue.data.takeWhile (fun c => c != '.')))
          ++ String.mk (displayValue.data.dropWhile (fun c => c != '.')) }
  else { s with display := formatNumberWithCommas displayValue }

/-- The constructor (lines 583-591) with the `updateDisplay` of `init`. -/
def init : Calculator :=
  updateDisplay
    { currentInput := "0", previousInput := "", operation := none,
      shouldResetDisplay := false, display := "", alerts := [] }

/-- `handleNumber(number)` (lines 625-637) for a digit key. -/
def handleNumber (d : Fin 10) (s : Calculator) : Calculator :=
  let s1 : Calculator :=
    if s.shouldResetDisplay then { s with currentInput := "", shouldResetDisplay := false }
    else s
  let s2 : Calculator :=
    if s1.currentInput = "0" then { s1 with currentInput := String.singleton (digitChar d) }
    else if s1.currentInput.length < 12 then
      { s1 with currentInput := s1.currentInput.push (digitChar d) }
    else s1
  updateDisplay s2

/-- `handleDecimal()` (lines 639-649). -/
def handleDecimal (s : Calculator) : Calculator :=
  let s1 : Calculator :=
    if s.shouldResetDisplay then { s with currentInput := "0", shouldResetDisplay := false }
    else s
  let s2 : Calculator :=
    if '.' ∈ s1.currentInput.data then s1
    else { s1 with currentInput := s1.currentInput.push '.' }
  updateDisplay s2

/-- `handleClear(type)` (lines 651-661); `ac` tells whether the type is `AC`. -/
def handleClear (ac : Bool) (s : Calculator) : Calculator :=
  let s1 : Calculator :=
    if ac then { s with currentInput := "0", previousInput := "", operation := none }
    else { s with currentInput := "0" }
  updateDisplay { s1 with shouldResetDisplay := false }

/-- `handleSignChange()` (lines 663-666). -/
def handleSignChange (s : Calculator) : Calculator :=
  updateDisplay { s with currentInput :=
    ((JSNum.parseFloat s.currentInput).mul (JSNum.fin (-1))).toString }

/-- `handlePercentage()` (lines 668-671). -/
def handlePercentage (s : Calculator) : Calculator :=
  updateDisplay { s with currentInput :=
    ((JSNum.parseFloat s.currentInput).div (JSNum.fin 100)).toString }

/-- The message of the division alert (line 708). -/
def divideMessage : String := "Cannot divide by zero"

/-- The step `Math.round(result * 100000000) / 100000000` of line 719. -/
def roundResult (result : JSNum) : JSNum :=
  ((result.mul (JSNum.fin 100000000)).round).div (JSNum.fin 100000000)

/-- `calculate()` (lines 689-723). -/
def calculate (s : Calculator) : Calculator :=
  let prev := JSNum.parseFloat s.previousInput
  let current := JSNum.parseFloat s.currentInput
  if prev.isNaN || current.isNaN then s
  else
    match s.operation with
    | none => s
    | some Op.div =>
        if current = JSNum.fin 0 then
          handleClear true { s with alerts := s.alerts ++ [divideMessage] }
        else
          updateDisplay { s with currentInput := (roundResult (prev.div current)).toString,
                                 shouldResetDisplay := true }
    | some Op.add =>
        updateDisplay { s with currentInput := (roundResult (prev.add current)).toString,
                               shouldResetDisplay := true }
    | some Op.sub =>
        updateDisplay { s with currentInput := (roundResult (prev.sub current)).toString,
                               shouldResetDisplay := true }
    | some Op.mul =>
        updateDisplay { s with currentInput := (roundResult (prev.mul current)).toString,
                               shouldResetDisplay := true }

/-- `handleOperation(op)` (lines 673-680). -/
def handleOperation (op : Op) (s : Calculator) : Calculator :=
  let s1 := if s.operation ≠ none then calculate s else s
  { s1 with previousInput := s1.currentInput, operation := some op,
            shouldResetDisplay := true }

/-- `handleEquals()` (lines 682-687). -/
def handleEquals (s : Calculator) : Calculator :=
  if s.operation ≠ none then { calculate s with operation := none } else s

/-- `handleButtonClick(value)` (lines 607-623). -/
def handleButtonClick (value : Key) (s : Calculator) : Calculator :=
  match value with
  | Key.digit d => handleNumber d s
  | Key.decimal => handleDecimal s
  | Key.clear ac => handleClear ac s
  | Key.sign => handleSignChange s
  | Key.percent => handlePercentage s
  | Key.equals => handleEquals s
  | Key.op o => handleOperation o s

/-- A sequence of button clicks, first to last. -/
def run (keys : List Key) (s : Calculator) : Calculator :=
  keys.foldl (fun acc k => handleButtonClick k acc) s

/-- The keys of a sequence of digits. -/
def digitKeys (ds : List (Fin 10)) : List Key := ds.map Key.digit

/-- The number written by a sequence of digits. -/
def digitsValue (ds : List (Fin 10)) : Nat :=
  ds.foldl (fun acc d => 10 * acc + d.val) 0

/-- The exact result of an operator on integers (`+`, `-`, `*`; the quotient
of `/` rounds down and is not used for the claims). -/
def exactOp : Op → Int → Int → Int
  | Op.add, x, y => x + y
  | Op.sub, x, y => x - y
  | Op.mul, x, y => x * y
  | Op.div, x, y => x / y

/-- The decimal writing of an integer. -/
def intString (z : Int) : String :=
  if z < 0 then "-" ++ Nat.repr z.natAbs else Nat.repr z.natAbs

/-- The state while a number is being keyed in: `currentInput` is a non-empty
string of at most `len` digits that writes `v`, and the next digit appends. -/
def Entered (s : Calculator) (v len : Nat) : Prop :=
  s.shouldResetDisplay = false ∧
  ∃ cs : List Char, s.currentInput = String.mk cs ∧ cs ≠ [] ∧
    (∀ c ∈ cs, c.isDigit = true) ∧ cs.length ≤ len ∧ JSNum.digitsVal cs = v

/-- The message of the `useCalcResult` handler (line 576). -/
def useResultMessage : String := "Please calculate a valid amount first."

/-- The click handler of `useCalcResult` (lines 568-578): from the value of
`calcDisplay` and the current value of the amount field to the new value of
the amount field and the alerts raised.  The call `this.closeModal()` that
follows the assignment does not touch either. -/
def useCalcResult (calcDisplay amount : String) : String × List String :=
  if calcDisplay ≠ "" ∧ (JSNum.toNumber calcDisplay).isNaN = false then (calcDisplay, [])
  else (amount, [useResultMessage])

end Calculator

namespace JSNum

/-! ## Exact Number arithmetic -/

theorem log2Aux_spec : ∀ (fuel n : Nat), 0 < n → n ≤ fuel →
    2 ^ log2Aux fuel n ≤ n ∧ n < 2 ^ (log2Aux fuel n + 1)
  | 0, n, h0, hle => by omega
  | fuel + 1, n, h0, hle => by
    unfold log2Aux
    by_cases h2 : n < 2
    · rw [if_pos h2]
      have : n = 1 := by omega
      subst this
      decide
    · rw [if_neg h2]
      obtain ⟨ih1, ih2⟩ := log2Aux_spec fuel (n / 2) (by omega) (by omega)
      simp only [pow_succ] at ih2 ⊢
      constructor
      · omega
      · omega

/-- The binary logarithm brackets its argument. -/
theorem log2_spec (n : Nat) (h0 : 0 < n) : 2 ^ log2 n ≤ n ∧ n < 2 ^ (log2 n + 1) :=
  log2Aux_spec n n h0 (le_refl n)

/-- A positive integer `N` that is a multiple of `2 ^ j` below `2 ^ (53 + j)`
is a double: rounding leaves it as it is. -/
theorem roundNearest_nat (N j : Nat) (h0 : 0 < N) (hdvd : 2 ^ j ∣ N)
    (hlt : N < 2 ^ (53 + j)) (hj : j ≤ 900) : roundNearest N 1 = some (N : ℚ) := by
  obtain ⟨hlo, hhi⟩ := log2_spec N h0
  have hexp : 53 + j ≤ 1024 := by omega
  have hfin : N < 2 ^ 1024 := lt_of_lt_of_le hlt (pow_le_pow_right₀ (by norm_num) hexp)
  have hlog1 : log2 1 = 0 := by decide
  have he : ilog2 N 1 = (log2 N : Int) := by
    have hnn : (0 : Int) ≤ (log2 N : Int) := Int.ofNat_nonneg _
    simp [ilog2, hlog1, hnn, hlo]
  unfold roundNearest
  simp only [he]
  have hge : ¬ ((log2 N : Int) < -1022) := by omega
  rw [if_neg hge]
  by_cases h52 : 52 ≤ log2 N
  · have hs : 0 ≤ (log2 N : Int) - 52 := by omega
    have hsn : ((log2 N : Int) - 52).toNat = log2 N - 52 := by omega
    simp only [hs, if_true, hsn, one_mul]
    have hLj : log2 N - 52 ≤ j := by
      have hpow : 2 ^ log2 N < 2 ^ (53 + j) := lt_of_le_of_lt hlo hlt
      have := (Nat.pow_lt_pow_iff_right (by decide : 1 < 2)).mp hpow
      omega
    have hd : 2 ^ (log2 N - 52) ∣ N := dvd_trans (Nat.pow_dvd_pow 2 hLj) hdvd
    have hmod : N % 2 ^ (log2 N - 52) = 0 := Nat.mod_eq_zero_of_dvd hd
    have hpos : 0 < 2 ^ (log2 N - 52) := Nat.pow_pos (by decide)
    have hmul : N / 2 ^ (log2 N - 52) * 2 ^ (log2 N - 52) = N := Nat.div_mul_cancel hd
    rw [hmod]
    simp only [Nat.mul_zero, hpos, if_true, hmul]
    rw [if_neg (by omega)]
  · have hs : ¬ (0 ≤ (log2 N : Int) - 52) := by omega
    have hsn : (-((log2 N : Int) - 52)).toNat = 52 - log2 N := by omega
    simp only [hs, if_false, hsn, Nat.div_one, Nat.mod_one, Nat.mul_zero, Nat.lt_one_iff,
      if_true]
    have h2 : (2 : Nat) ^ (52 - log2 N) ≠ 0 := Nat.pos_iff_ne_zero.mp (Nat.pow_pos (by decide))
    have := Rat.mkRat_mul_right (n := (N : Int)) (d := 1) h2
    rw [one_mul] at this
    have hcast : ((N * 2 ^ (52 - log2 N) : Nat) : Int) = (N : Int) * ((2 ^ (52 - log2 N) : Nat) : Int) := by
      push_cast; rfl
    rw [hcast, this]
    simp [Rat.mkRat_one]

/-- An integer that is a multiple of `2 ^ j` and below `2 ^ (53 + j)` in
absolute value is a double. -/
theorem roundDouble_int (z : Int) (j : Nat) (hdvd : 2 ^ j ∣ z.natAbs)
    (hlt : z.natAbs < 2 ^ (53 + j)) (hj : j ≤ 900) : roundDouble (z : ℚ) = fin (z : ℚ) := by
  unfold roundDouble
  simp only [Rat.intCast_num, Rat.intCast_den]
  by_cases hz : z = 0
  · subst hz
    simp
  · rw [if_neg hz]
    have h0 : 0 < z.natAbs := Int.natAbs_pos.mpr hz
    rw [roundNearest_nat z.natAbs j h0 hdvd hlt hj]
    simp only
    congr 1
    by_cases hneg : z < 0
    · rw [if_pos hneg, Nat.cast_natAbs, abs_of_neg hneg]
      push_cast
      ring
    · rw [if_neg hneg, Nat.cast_natAbs, abs_of_nonneg (by omega)]

/-- An integer below `2 ^ 53` in absolute value is a double. -/
theorem roundDouble_int_small (z : Int) (h : z.natAbs < 2 ^ 53) :
    roundDouble (z : ℚ) = fin (z : ℚ) :=
  roundDouble_int z 0 (by simp) (by simpa using h) (by decide)

/-- `Math.round` leaves an integer as it is. -/
theorem round_int (z : Int) : round (fin (z : ℚ)) = fin (z : ℚ) := by
  have hfloor : ⌊(z : ℚ) + 1 / 2⌋ = z := by
    rw [Int.floor_eq_iff]
    constructor
    · linarith
    · linarith
  show fin ((⌊(z : ℚ) + 1 / 2⌋ : Int) : ℚ) = fin (z : ℚ)
  rw [hfloor]

theorem add_fin (x y : ℚ) : add (fin x) (fin y) = roundDouble (x + y) := rfl

theorem sub_fin (x y : ℚ) : sub (fin x) (fin y) = roundDouble (x + -y) := rfl

theorem mul_fin (x y : ℚ) : mul (fin x) (fin y) = roundDouble (x * y) := rfl

theorem div_fin (x y : ℚ) (hy : y ≠ 0) : div (fin x) (fin y) = roundDouble (x / y) := by
  show (if y = 0 then _ else roundDouble (x / y)) = _
  rw [if_neg hy]

/-! ## Digits: reading and writing integers -/

theorem isDigit_toNat (c : Char) (h : c.isDigit = true) : 48 ≤ c.toNat ∧ c.toNat ≤ 57 := by
  simp only [Char.isDigit, Bool.and_eq_true, decide_eq_true_eq] at h
  exact ⟨h.1, h.2⟩

theorem isTrimChar_of_isDigit (c : Char) (h : c.isDigit = true) :
    CashBook.isTrimChar c = false := by
  obtain ⟨h1, h2⟩ := isDigit_toNat c h
  unfold CashBook.isTrimChar
  simp only [Bool.or_eq_false_iff, Bool.and_eq_false_iff, decide_eq_false_iff_not]
  omega

theorem digitsVal_append (cs : List Char) (c : Char) :
    digitsVal (cs ++ [c]) = 10 * digitsVal cs + (c.toNat - 48) := by
  simp [digitsVal, List.foldl_append]

theorem digitsVal_lt (cs : List Char) (h : ∀ c ∈ cs, c.isDigit = true) :
    digitsVal cs < 10 ^ cs.length := by
  induction cs using List.reverseRecOn with
  | nil => simp [digitsVal]
  | append_singleton cs c ih =>
    have hc := isDigit_toNat c (h c (by simp))
    have hv := ih (fun x hx => h x (by simp [hx]))
    rw [digitsVal_append, List.length_append, List.length_singleton, pow_succ]
    omega

/-- A non-empty string of digits scans as the number it writes, with nothing
left over. -/
theorem scanDecimal_digits (cs : List Char) (hne : cs ≠ [])
    (hd : ∀ c ∈ cs, c.isDigit = true) :
    scanDecimal cs = some (roundDouble (digitsVal cs : ℚ), []) := by
  obtain ⟨c, r, rfl⟩ := List.exists_cons_of_ne_nil hne
  have hc : c.isDigit = true := hd c (by simp)
  have hminus : c ≠ '-' := by
    intro h; subst h; exact absurd hc (by decide)
  have hplus : c ≠ '+' := by
    intro h; subst h; exact absurd hc (by decide)
  have hI : c ≠ 'I' := by
    intro h; subst h; exact absurd hc (by decide)
  have htake : (c :: r).takeWhile Char.isDigit = c :: r :=
    List.takeWhile_eq_self_iff.mpr hd
  have hdrop : (c :: r).dropWhile Char.isDigit = [] :=
    List.dropWhile_eq_nil_iff.mpr hd
  unfold scanDecimal
  simp only [List.head?_cons, Option.some.injEq, hminus, hplus, or_self, if_false,
    decide_False, htake, hdrop, List.head?_nil, List.tail_nil]
  simp [pow10, hI]

/-- The same after a minus sign. -/
theorem scanDecimal_neg_digits (cs : List Char) (hne : cs ≠ [])
    (hd : ∀ c ∈ cs, c.isDigit = true) :
    scanDecimal ('-' :: cs) = some (roundDouble (-(digitsVal cs : ℚ)), []) := by
  obtain ⟨c, r, rfl⟩ := List.exists_cons_of_ne_nil hne
  have hc : c.isDigit = true := hd c (by simp)
  have hI : c ≠ 'I' := by
    intro h; subst h; exact absurd hc (by decide)
  have htake : (c :: r).takeWhile Char.isDigit = c :: r :=
    List.takeWhile_eq_self_iff.mpr hd
  have hdrop : (c :: r).dropWhile Char.isDigit = [] :=
    List.dropWhile_eq_nil_iff.mpr hd
  unfold scanDecimal
  simp only [List.head?_cons, true_or, if_true, List.tail_cons, decide_True,
    htake, hdrop, List.head?_nil, List.tail_nil]
  simp [pow10, hI]

theorem parseFloat_digits (cs : List Char) (hne : cs ≠ [])
    (hd : ∀ c ∈ cs, c.isDigit = true) :
    parseFloat (String.mk cs) = roundDouble (digitsVal cs : ℚ) := by
  obtain ⟨c, r, rfl⟩ := List.exists_cons_of_ne_nil hne
  have hc : CashBook.isTrimChar c = false := isTrimChar_of_isDigit c (hd c (by simp))
  unfold parseFloat
  simp only [List.dropWhile_cons, hc, Bool.false_eq_true, if_false]
  rw [scanDecimal_digits (c :: r) hne hd]

theorem parseFloat_neg_digits (cs : List Char) (hne : cs ≠ [])
    (hd : ∀ c ∈ cs, c.isDigit = true) :
    parseFloat (String.mk ('-' :: cs)) = roundDouble (-(digitsVal cs : ℚ)) := by
  have hc : CashBook.isTrimChar '-' = false := by decide
  unfold parseFloat
  simp only [List.dropWhile_cons, hc, Bool.false_eq_true, if_false]
  rw [scanDecimal_neg_digits cs hne hd]

theorem digitChar_spec (k : Nat) (h : k < 10) :
    (Nat.digitChar k).isDigit = true ∧ (Nat.digitChar k).toNat - 48 = k := by
  interval_cases k <;> exact ⟨rfl, rfl⟩

/-- The digits produced by `Nat.toDigits` in base ten are decimal digits and
write the number. -/
theorem toDigitsCore_spec : ∀ (fuel n : Nat) (ds : List Char), n < fuel →
    ∃ pre : List Char, Nat.toDigitsCore 10 fuel n ds = pre ++ ds ∧ pre ≠ [] ∧
      (∀ c ∈ pre, c.isDigit = true) ∧ digitsVal pre = n
  | 0, n, ds, h => by omega
  | fuel + 1, n, ds, h => by
    obtain ⟨hdig, hval⟩ := digitChar_spec (n % 10) (Nat.mod_lt _ (by decide))
    unfold Nat.toDigitsCore
    by_cases h0 : n / 10 = 0
    · simp only [h0, if_true]
      refine ⟨[Nat.digitChar (n % 10)], rfl, by simp, ?_, ?_⟩
      · intro c hc
        rw [List.mem_singleton] at hc
        rw [hc]; exact hdig
      · show 10 * 0 + ((Nat.digitChar (n % 10)).toNat - 48) = n
        rw [hval]; omega
    · simp only [h0, if_false]
      obtain ⟨pre, he, hne, hd, hv⟩ :=
        toDigitsCore_spec fuel (n / 10) (Nat.digitChar (n % 10) :: ds) (by omega)
      refine ⟨pre ++ [Nat.digitChar (n % 10)], ?_, by simp, ?_, ?_⟩
      · rw [he]; simp
      · intro c hc
        rw [List.mem_append, List.mem_singleton] at hc
        rcases hc with hc | hc
        · exact hd c hc
        · rw [hc]; exact hdig
      · rw [digitsVal_append, hv, hval]; omega

theorem repr_spec (n : Nat) :
    ∃ cs : List Char, Nat.repr n = String.mk cs ∧ cs ≠ [] ∧
      (∀ c ∈ cs, c.isDigit = true) ∧ digitsVal cs = n := by
  obtain ⟨pre, he, hne, hd, hv⟩ := toDigitsCore_spec (n + 1) n [] (by omega)
  refine ⟨pre, ?_, hne, hd, hv⟩
  show (Nat.toDigits 10 n).asString = String.mk pre
  unfold Nat.toDigits
  rw [he, List.append_nil]
  rfl

end JSNum

namespace CashBook

/-! ## Calendar lemmas -/

theorem yoe_core (doe : Int) (h0 : 0 ≤ doe) (h1 : doe ≤ 146096)
    (n100 r2 n4 r3 n1 doy yoe : Int)
    (e1 : n100 = if doe / 36524 < 3 then doe / 36524 else 3)
    (e2 : r2 = doe - n100 * 36524) (e3 : n4 = r2 / 1461) (e4 : r3 = r2 - n4 * 1461)
    (e5 : n1 = if r3 / 365 < 3 then r3 / 365 else 3) (e6 : doy = r3 - n1 * 365)
    (e7 : yoe = n100 * 100 + n4 * 4 + n1) :
    0 ≤ yoe ∧ yoe ≤ 399 ∧ yoe * 365 + yoe / 4 - yoe / 100 + doy = doe ∧
      0 ≤ doy ∧ doy ≤ 365 := by
  have a0 : 0 ≤ n100 := by rw [e1]; split_ifs <;> omega
  have a1 : n100 ≤ 3 := by rw [e1]; split_ifs <;> omega
  have b0 : 0 ≤ r2 := by rw [e1] at e2; split_ifs at e2 <;> omega
  have b1 : r2 ≤ 36524 := by rw [e1] at e2; split_ifs at e2 <;> omega
  have c0 : 0 ≤ n4 ∧ n4 ≤ 24 := by omega
  have d0 : 0 ≤ r3 ∧ r3 ≤ 1460 := by omega
  have f0 : 0 ≤ n1 ∧ n1 ≤ 3 := by rw [e5]; split_ifs <;> omega
  have g0 : 0 ≤ doy ∧ doy ≤ 365 := by rw [e5] at e6; split_ifs at e6 <;> omega
  obtain ⟨f0, f1⟩ := f0
  have q4 : yoe / 4 = 25 * n100 + n4 := by omega
  have q100 : yoe / 100 = n100 := by omega
  refine ⟨by omega, by omega, ?_, g0.1, g0.2⟩
  rw [q4, q100]; omega

/-- The shape of `civilFromDays z`: an era, a year of the era and a day of the
(March-based) year that add up to the day number. -/
theorem civilFromDays_shape (z : Int) :
    ∃ era yoe doy : Int, 0 ≤ yoe ∧ yoe ≤ 399 ∧ 0 ≤ doy ∧ doy ≤ 365 ∧
      z + 719468 = era * 146097 + (yoe * 365 + yoe / 4 - yoe / 100 + doy) ∧
      civilFromDays z =
        (if (if (5 * doy + 2) / 153 < 10 then (5 * doy + 2) / 153 + 2
              else (5 * doy + 2) / 153 - 10) ≤ 1
          then yoe + era * 400 + 1 else yoe + era * 400,
         if (5 * doy + 2) / 153 < 10 then (5 * doy + 2) / 153 + 2
           else (5 * doy + 2) / 153 - 10,
         doy - (153 * ((5 * doy + 2) / 153) + 2) / 5 + 1) := by
  have hd0 : 0 ≤ z + 719468 - (z + 719468) / 146097 * 146097 := by omega
  have hd1 : z + 719468 - (z + 719468) / 146097 * 146097 ≤ 146096 := by omega
  obtain ⟨y0, y1, hsum, d0, d1⟩ := yoe_core _ hd0 hd1 _ _ _ _ _ _ _ rfl rfl rfl rfl rfl rfl rfl
  exact ⟨(z + 719468) / 146097, _, _, y0, y1, d0, d1, by rw [hsum]; omega, rfl⟩

/-- Converting a day number to a civil date and back, with an arbitrary day of
month `d` in place of the computed one, shifts the day number accordingly. -/
theorem daysFromCivil_civilFromDays (z d : Int) :
    daysFromCivil (civilFromDays z).1 (civilFromDays z).2.1 d
      = z + (d - (civilFromDays z).2.2) := by
  obtain ⟨era, yoe, doy, y0, y1, d0, d1, hz, hc⟩ := civilFromDays_shape z
  rw [hc]
  simp only [daysFromCivil]
  have m0 : 0 ≤ (5 * doy + 2) / 153 := by omega
  have m1 : (5 * doy + 2) / 153 ≤ 11 := by omega
  generalize (5 * doy + 2) / 153 = mp at *
  by_cases hmp : mp < 10
  · have hmn : ¬ (mp + 2 ≤ 1) := by omega
    simp only [hmp, if_true, hmn, if_false]
    have he : (yoe + era * 400) / 400 = era := by omega
    rw [he]
    have hy : yoe + era * 400 - era * 400 = yoe := by omega
    rw [hy]
    have hm : mp + 2 - 2 = mp := by omega
    rw [hm]
    omega
  · have hmn : mp - 10 ≤ 1 := by omega
    simp only [hmp, if_false, hmn, if_true]
    have hy1 : yoe + era * 400 + 1 - 1 = yoe + era * 400 := by omega
    rw [hy1]
    have he : (yoe + era * 400) / 400 = era := by omega
    rw [he]
    have hy : yoe + era * 400 - era * 400 = yoe := by omega
    rw [hy]
    have hm : mp - 10 + 10 = mp := by omega
    rw [hm]
    omega

/-- The month of a civil date lies in 0..11. -/
theorem civilFromDays_month_range (z : Int) :
    0 ≤ (civilFromDays z).2.1 ∧ (civilFromDays z).2.1 ≤ 11 := by
  obtain ⟨era, yoe, doy, y0, y1, d0, d1, hz, hc⟩ := civilFromDays_shape z
  rw [hc]
  simp only
  split_ifs <;> omega

/-- Days from the year 1700 on (day number at least -98000) fall in years from
1600 on, so their years are never in the range 0..99. -/
theorem civilFromDays_year_ge (z : Int) (hz : -98000 ≤ z) : 1600 ≤ (civilFromDays z).1 := by
  obtain ⟨era, yoe, doy, y0, y1, d0, d1, hz1, hc⟩ := civilFromDays_shape z
  rw [hc]
  simp only
  have hq : yoe / 4 ≤ 99 ∧ 0 ≤ yoe / 100 := by omega
  have he : 4 ≤ era := by omega
  split_ifs <;> omega

/-- `new Date(y, m, d + k)` built from the civil date `(y, m, d)` of the day
number `z` is local midnight of the day `z + k`. -/
theorem newDate_civil (tz : Zone) (z k : Int) (hz : -98000 ≤ z) :
    newDate tz (civilFromDays z).1 (civilFromDays z).2.1 ((civilFromDays z).2.2 + k)
      = UTC tz ((z + k) * msPerDay) := by
  have hy := civilFromDays_year_ge z hz
  obtain ⟨m0, m1⟩ := civilFromDays_month_range z
  have hrt := daysFromCivil_civilFromDays z 1
  unfold newDate MakeDay
  have hnot : ¬ (0 ≤ (civilFromDays z).1 ∧ (civilFromDays z).1 ≤ 99) := by omega
  simp only [hnot, if_false]
  have hdiv : (civilFromDays z).2.1 / 12 = 0 := by omega
  have hmod : (civilFromDays z).2.1 % 12 = (civilFromDays z).2.1 := by omega
  rw [hdiv, hmod, add_zero, hrt]
  congr 1
  congr 1
  omega

/-- The same for a `Date` value `t`, read with `getFullYear`, `getMonth` and
`getDate`. -/
theorem newDate_getters (tz : Zone) (t k : Int) (ht : -98000 ≤ Day (LocalTime tz t)) :
    newDate tz (getFullYear tz t) (getMonth tz t) (getDate tz t + k)
      = UTC tz ((Day (LocalTime tz t) + k) * msPerDay) :=
  newDate_civil tz (Day (LocalTime tz t)) k ht

/-- In a regular zone the local day of the local midnight of day `d` is `d`. -/
theorem Day_local_midnight (tz : Zone) (hreg : Regular tz) (d : Int) :
    Day (LocalTime tz (UTC tz (d * msPerDay))) = d := by
  have h1 : d ≤ Day (LocalTime tz (UTC tz (d * msPerDay))) :=
    (hreg.1 d (UTC tz (d * msPerDay))).mpr (le_refl _)
  have h2 : ¬ (d + 1 ≤ Day (LocalTime tz (UTC tz (d * msPerDay)))) := fun h =>
    absurd ((hreg.1 (d + 1) (UTC tz (d * msPerDay))).mp h) (not_le.mpr (hreg.2 d))
  omega

/-- The local day of an instant at or after the epoch, where local time is at
most a day behind UTC, is at least -1. -/
theorem Day_local_ge (tz : Zone) (now : Nat) (htz : -msPerDay ≤ tz.utcOffset now) :
    -1 ≤ Day (LocalTime tz now) := by
  unfold Day LocalTime
  unfold msPerDay at *
  omega

/-- Local time in a fixed zone. -/
theorem LocalTime_fixedZone (tz t : Int) : LocalTime (fixedZone tz) t = t + localTZA tz := rfl

/-- The instant of a local time in a fixed zone. -/
theorem UTC_fixedZone (tz t : Int) : UTC (fixedZone tz) t = t - localTZA tz := rfl

/-- Every fixed zone is regular. -/
theorem regular_fixedZone (tz : Int) : Regular (fixedZone tz) := by
  constructor
  · intro d t
    rw [LocalTime_fixedZone, UTC_fixedZone]
    unfold Day msPerDay localTZA
    constructor <;> intro h <;> omega
  · intro d
    rw [UTC_fixedZone, UTC_fixedZone]
    unfold msPerDay
    omega

/-- The zone `azores` is regular: when the clocks go back the local date stays
the same. -/
theorem regular_azores : Regular azores := by
  constructor
  · intro d t
    unfold Day LocalTime UTC azores azoresSummerEnd msPerDay
    simp only []
    split_ifs <;> constructor <;> intro h <;> omega
  · intro d
    unfold UTC azores azoresSummerEnd msPerDay
    simp only []
    split_ifs <;> omega

/-! ## Rendering, saving and the summary: frame lemmas -/

theorem sortByDateDesc_perm (ts : List Transaction) : (sortByDateDesc ts).Perm ts :=
  List.perm_insertionSort dateDesc ts

theorem sortByDateDesc_sorted (ts : List Transaction) : (sortByDateDesc ts).Sorted dateDesc := by
  haveI : IsTotal Transaction dateDesc := ⟨fun a b => by unfold dateDesc; omega⟩
  haveI : IsTrans Transaction dateDesc := ⟨fun a b c => by unfold dateDesc; omega⟩
  exact List.sorted_insertionSort dateDesc ts

theorem sortByDateDesc_of_sorted {ts : List Transaction} (h : ts.Sorted dateDesc) :
    sortByDateDesc ts = ts :=
  List.Sorted.insertionSort_eq h

theorem renderTransactions_transactions_all (tz : Zone) (now : Int) (s : CashBook)
    (h : s.currentFilter = Selector.all) :
    (renderTransactions tz now s).transactions = sortByDateDesc s.transactions := by
  unfold renderTransactions getFilteredTransactions
  rw [h]
  by_cases hl : s.transactions.length = 0
  · have hnil : s.transactions = [] := List.length_eq_zero.mp hl
    simp [hnil, sortByDateDesc]
  · simp [hl]

theorem renderTransactions_transactions_of_ne_all (tz : Zone) (now : Int) (s : CashBook)
    (h : s.currentFilter ≠ Selector.all) :
    (renderTransactions tz now s).transactions = s.transactions := by
  unfold renderTransactions getFilteredTransactions
  cases hf : s.currentFilter <;> first
    | exact absurd hf h
    | (simp only []; split_ifs <;> first | rfl | contradiction)

theorem renderTransactions_perm (tz : Zone) (now : Int) (s : CashBook) :
    (renderTransactions tz now s).transactions.Perm s.transactions := by
  by_cases h : s.currentFilter = Selector.all
  · rw [renderTransactions_transactions_all tz now s h]
    exact sortByDateDesc_perm _
  · rw [renderTransactions_transactions_of_ne_all tz now s h]

theorem renderTransactions_frame (tz : Zone) (now : Int) (s : CashBook) :
    (renderTransactions tz now s).currentFilter = s.currentFilter ∧
    (renderTransactions tz now s).currentEditingId = s.currentEditingId ∧
    (renderTransactions tz now s).storage = s.storage ∧
    (renderTransactions tz now s).summary = s.summary ∧
    (renderTransactions tz now s).alerts = s.alerts := by
  unfold renderTransactions
  simp only []
  split_ifs <;> exact ⟨rfl, rfl, rfl, rfl, rfl⟩

/-- Every rendering establishes `RenderInv`. -/
theorem renderTransactions_renderInv (tz : Zone) (now : Int) (s : CashBook) :
    RenderInv (renderTransactions tz now s) := by
  intro h
  rw [(renderTransactions_frame tz now s).1] at h
  rw [renderTransactions_transactions_all tz now s h]
  exact sortByDateDesc_sorted _

/-- `RenderInv` holds in every reachable state. -/
theorem reachable_renderInv (tz : Zone) (s : CashBook) (h : Reachable tz s) : RenderInv s := by
  induction h with
  | construct now stored => exact renderTransactions_renderInv _ _ _
  | edit id _ ih =>
    unfold editTransaction
    split
    · exact ih
    · exact ih
  | add now form _ ih =>
    unfold addTransaction
    split
    · exact ih
    · simp only
      split_ifs
      · exact ih
      · exact renderTransactions_renderInv _ _ _
      · exact renderTransactions_renderInv _ _ _
  | delete now confirmed id _ ih =>
    unfold deleteTransaction
    split_ifs
    · exact renderTransactions_renderInv _ _ _
    · exact ih
  | filter now f _ ih => exact renderTransactions_renderInv _ _ _
  | clear now confirmed _ ih =>
    unfold clearAllTransactions
    split_ifs
    · exact ih
    · exact renderTransactions_renderInv _ _ _
    · exact ih

/-- Under `RenderInv` a rendering leaves the collection as it is. -/
theorem renderTransactions_transactions_of_inv (tz : Zone) (now : Int) (s : CashBook)
    (h : s.currentFilter = Selector.all → s.transactions.Sorted dateDesc) :
    (renderTransactions tz now s).transactions = s.transactions := by
  by_cases hf : s.currentFilter = Selector.all
  · rw [renderTransactions_transactions_all tz now s hf, sortByDateDesc_of_sorted (h hf)]
  · exact renderTransactions_transactions_of_ne_all tz now s hf

/-! ## Summary lemmas -/

/-- A sum of non-negative whole numbers is a non-negative whole number. -/
theorem sum_whole (qs : List ℚ) (h : ∀ q ∈ qs, q.den = 1 ∧ 0 ≤ q) :
    ∃ n : Int, 0 ≤ n ∧ qs.sum = (n : ℚ) := by
  induction qs with
  | nil => exact ⟨0, le_refl _, by simp⟩
  | cons q qs ih =>
    obtain ⟨n, hn0, hn⟩ := ih (fun x hx => h x (List.mem_cons_of_mem _ hx))
    obtain ⟨hden, hq0⟩ := h q (List.mem_cons_self _ _)
    have hnum0 : 0 ≤ q.num := Rat.num_nonneg.mpr hq0
    refine ⟨q.num + n, by omega, ?_⟩
    rw [List.sum_cons, hn, Int.cast_add, Rat.coe_int_num_of_den_eq_one hden]

/-- Adding non-negative whole numbers from left to right in Number arithmetic
is exact as long as the total stays below `2 ^ 53`. -/
theorem foldl_add_whole (qs : List ℚ) : ∀ (init : Int), 0 ≤ init →
    (∀ q ∈ qs, q.den = 1 ∧ 0 ≤ q) → (init : ℚ) + qs.sum < 2 ^ 53 →
    qs.foldl (fun sum q => JSNum.add sum (JSNum.fin q)) (JSNum.fin (init : ℚ))
      = JSNum.fin ((init : ℚ) + qs.sum) := by
  induction qs with
  | nil =>
    intro init _ _ _
    simp
  | cons q qs ih =>
    intro init h0 hall hlt
    obtain ⟨hden, hq0⟩ := hall q (List.mem_cons_self _ _)
    have hrest : ∀ x ∈ qs, x.den = 1 ∧ 0 ≤ x := fun x hx => hall x (List.mem_cons_of_mem _ hx)
    obtain ⟨n, hn0, hn⟩ := sum_whole qs hrest
    have hqn : (q.num : ℚ) = q := Rat.coe_int_num_of_den_eq_one hden
    have hnum0 : 0 ≤ q.num := Rat.num_nonneg.mpr hq0
    rw [List.sum_cons] at hlt
    have hlt2 : init + q.num + n < 9007199254740992 := by
      have : ((init + q.num + n : Int) : ℚ) < 9007199254740992 := by
        push_cast
        rw [hqn, ← hn]
        linarith
      exact_mod_cast this
    have hstep : JSNum.add (JSNum.fin (init : ℚ)) (JSNum.fin q)
        = JSNum.fin ((init + q.num : Int) : ℚ) := by
      rw [JSNum.add_fin, ← hqn, ← Int.cast_add]
      exact JSNum.roundDouble_int_small _ (by norm_num; omega)
    rw [List.foldl_cons, hstep, ih (init + q.num) (by omega) hrest
      (by push_cast; rw [hqn]; linarith), List.sum_cons]
    push_cast
    rw [hqn, add_assoc]

/-- The positive amounts and the absolute values of the negative amounts add
up to the absolute values of all amounts. -/
theorem sum_income_add_sum_expense (ts : List Transaction) :
    ((ts.filter (fun t => decide (t.amount > 0))).map (fun t => t.amount)).sum +
      ((ts.filter (fun t => decide (t.amount < 0))).map (fun t => |t.amount|)).sum
      = (ts.map (fun t => |t.amount|)).sum := by
  induction ts with
  | nil => simp
  | cons t ts ih =>
    rcases lt_trichotomy t.amount 0 with h | h | h
    · have h1 : ¬ (t.amount > 0) := not_lt.mpr (le_of_lt h)
      simp only [List.filter_cons, h, h1, decide_True, decide_False, if_true, Bool.false_eq_true,
        if_false, List.map_cons, List.sum_cons]
      rw [← ih]
      ring
    · simp only [List.filter_cons, h, lt_irrefl, gt_iff_lt, decide_False, Bool.false_eq_true,
        if_false, List.map_cons, List.sum_cons, abs_zero, zero_add]
      exact ih
    · have h1 : ¬ (t.amount < 0) := not_lt.mpr (le_of_lt h)
      simp only [List.filter_cons, h, h1, gt_iff_lt, decide_True, decide_False, if_true,
        Bool.false_eq_true, if_false, List.map_cons, List.sum_cons, abs_of_pos h]
      rw [← ih]
      ring

/-! ## Submitting the form -/

theorem addTransaction_valid (tz : Zone) (now : Nat) (form : Form) (s : CashBook) (a : ℚ)
    (hdesc : jsTrim form.description ≠ "") (hamt : form.amount = some a) (hpos : 0 < a) :
    addTransaction tz now form s =
      renderTransactions tz now (updateSummary tz now (saveTransactions
        (if truthy s.currentEditingId then
          { s with
            transactions := s.transactions.map
              (fun t => if some t.id = s.currentEditingId
                then mkTransaction now s.currentEditingId (jsTrim form.description) a form
                else t),
            currentEditingId := none }
        else { s with transactions := s.transactions ++
            [mkTransaction now s.currentEditingId (jsTrim form.description) a form] }))) := by
  unfold addTransaction
  simp only [hamt]
  rw [if_neg]
  rintro (h | h)
  · exact hdesc h
  · exact absurd hpos (not_lt.mpr h)

/-- C1: a valid submission made while no record is being edited adds exactly
one record: the collection after `addTransaction` is a rearrangement of the old
collection plus one new record (so it is one longer and still holds every
previous record), the stored copy is the old collection followed by the new
record, and the new record's amount is `|a|` for an income and `-|a|` for an
expense, so that its sign matches its type. -/
theorem addTransaction_create (tz : Zone) (now : Nat) (form : Form) (s : CashBook) (a : ℚ)
    (hedit : s.currentEditingId = none) (hdesc : jsTrim form.description ≠ "")
    (hamt : form.amount = some a) (hpos : 0 < a) :
    ∃ r : Transaction,
      (addTransaction tz now form s).transactions.Perm (s.transactions ++ [r]) ∧
      (addTransaction tz now form s).transactions.length = s.transactions.length + 1 ∧
      (∀ t ∈ s.transactions, t ∈ (addTransaction tz now form s).transactions) ∧
      r ∈ (addTransaction tz now form s).transactions ∧
      (addTransaction tz now form s).storage = s.transactions ++ [r] ∧
      r.id = toString now ∧ r.description = jsTrim form.description ∧
      r.type = form.type ∧ r.date = form.date ∧ r.time = form.time ∧
      (form.type = TxType.income → r.amount = |a| ∧ 0 < r.amount) ∧
      (form.type = TxType.expense → r.amount = -|a| ∧ r.amount < 0) := by
  have habs : |a| = a := abs_of_pos hpos
  have hperm : (addTransaction tz now form s).transactions.Perm
      (s.transactions ++ [mkTransaction now none (jsTrim form.description) a form]) := by
    rw [addTransaction_valid tz now form s a hdesc hamt hpos, hedit]
    exact renderTransactions_perm _ _ _
  refine ⟨mkTransaction now none (jsTrim form.description) a form, hperm, ?_, ?_, ?_, ?_,
    rfl, rfl, rfl, rfl, rfl, ?_, ?_⟩
  · rw [hperm.length_eq]; simp
  · intro t ht
    exact hperm.symm.subset (List.mem_append_left _ ht)
  · exact hperm.symm.subset (by simp)
  · rw [addTransaction_valid tz now form s a hdesc hamt hpos, hedit]
    rw [(renderTransactions_frame _ _ _).2.2.1]
    rfl
  · intro hty
    simp [mkTransaction, hty, habs, hpos]
  · intro hty
    simp [mkTransaction, hty, habs, hpos]

/-- The end-to-end example of C1: creating Coffee, 50, expense, 2024-03-10 on
the empty book gives a collection holding one record, of amount -50. -/
theorem addTransaction_create_witness :
    emptyBook.currentEditingId = none ∧ jsTrim coffeeForm.description ≠ "" ∧
    coffeeForm.amount = some 50 ∧ (0 : ℚ) < 50 ∧
    (addTransaction (fixedZone 330) 1710060000000 coffeeForm emptyBook).transactions = [coffee] ∧
    coffee.amount = -50 := by
  obtain ⟨r, hp, _, _, _, _, hid, hdesc, hty, hdate, htime, _, hexp⟩ :=
    addTransaction_create (fixedZone 330) 1710060000000 coffeeForm emptyBook 50 rfl (by decide) rfl
      (by norm_num)
  have hamt := (hexp rfl).1
  have hr : r = coffee := by
    cases r
    simp only [coffee, Transaction.mk.injEq]
    simp only at hid hdesc hty hdate htime hamt
    exact ⟨hid.trans (by decide), hdesc.trans (by decide), hamt.trans (by norm_num), hty,
      hdate, htime⟩
  have hlist : (addTransaction (fixedZone 330) 1710060000000 coffeeForm emptyBook).transactions = [r] :=
    List.perm_singleton.mp (by simpa [emptyBook] using hp)
  exact ⟨rfl, by decide, rfl, by norm_num, by rw [hlist, hr], rfl⟩

/-- C2: a submission whose trimmed description is empty, or whose amount is
`NaN` or not positive, is rejected: the collection, the editing id, the stored
copy, the totals, the list and the selector stay as they were, and the only
effect is the validation alert.  This holds whether or not a record is being
edited. -/
theorem addTransaction_invalid (tz : Zone) (now : Nat) (form : Form) (s : CashBook)
    (h : jsTrim form.description = "" ∨ form.amount = none ∨
      ∃ a, form.amount = some a ∧ a ≤ 0) :
    (addTransaction tz now form s).transactions = s.transactions ∧
    (addTransaction tz now form s).currentEditingId = s.currentEditingId ∧
    (addTransaction tz now form s).storage = s.storage ∧
    (addTransaction tz now form s).summary = s.summary ∧
    (addTransaction tz now form s).listView = s.listView ∧
    (addTransaction tz now form s).currentFilter = s.currentFilter ∧
    (addTransaction tz now form s).alerts = s.alerts ++ [invalidMessage] := by
  have hrej : addTransaction tz now form s =
      { s with alerts := s.alerts ++ [invalidMessage] } := by
    unfold addTransaction
    cases hamt : form.amount with
    | none => rfl
    | some amount =>
      simp only
      rw [if_pos]
      rcases h with h | h | ⟨a, ha, hle⟩
      · exact Or.inl h
      · rw [hamt] at h; cases h
      · rw [hamt] at ha
        cases ha
        exact Or.inr hle
  rw [hrej]
  exact ⟨rfl, rfl, rfl, rfl, rfl, rfl, rfl⟩

/-- A blank description is rejected while a record is being edited: the
collection and the editing id are kept. -/
theorem addTransaction_invalid_witness :
    (addTransaction (fixedZone 330) 1710060000000 blankForm
        { emptyBook with transactions := [coffee], currentEditingId := some "1710060000000" }
      ).transactions = [coffee] ∧
    (addTransaction (fixedZone 330) 1710060000000 blankForm
        { emptyBook with transactions := [coffee], currentEditingId := some "1710060000000" }
      ).currentEditingId = some "1710060000000" :=
  ⟨(addTransaction_invalid (fixedZone 330) 1710060000000 blankForm
      { emptyBook with transactions := [coffee], currentEditingId := some "1710060000000" }
      (Or.inl (by decide))).1,
   (addTransaction_invalid (fixedZone 330) 1710060000000 blankForm
      { emptyBook with transactions := [coffee], currentEditingId := some "1710060000000" }
      (Or.inl (by decide))).2.1⟩

/-- C7 as stated fails: the totals are sums of doubles, rounded at every step.
The records `tenth` and `fifth` carry the amounts that `parseFloat` reads from
`0.1` and `0.2`; their income total is the double written
`0.30000000000000004`, which is neither the sum of the two amounts, nor the
sum of the decimals 0.1 and 0.2, nor the double nearest to 0.3. -/
theorem summarize_rounds_each_sum :
    JSNum.parseFloat "0.1" = JSNum.fin tenth.amount ∧
    JSNum.parseFloat "0.2" = JSNum.fin fifth.amount ∧
    (summarize [tenth, fifth]).totalIncome
      = JSNum.fin (1351079888211149 / 4503599627370496) ∧
    JSNum.toString (summarize [tenth, fifth]).totalIncome = "0.30000000000000004" ∧
    (summarize [tenth, fifth]).totalIncome ≠ JSNum.fin (tenth.amount + fifth.amount) ∧
    (summarize [tenth, fifth]).totalIncome ≠ JSNum.fin (1 / 10 + 2 / 10) ∧
    (summarize [tenth, fifth]).totalIncome ≠ JSNum.parseFloat "0.3" ∧
    (summarize [tenth, fifth]).balance = (summarize [tenth, fifth]).totalIncome := by
  decide!

/-- C7 as amended: when every amount is a whole number and the absolute values
of the amounts add up to less than `2 ^ 53`, the totals computed by
`updateSummary` are exact: the income total is the sum of the positive
amounts, the expense total the sum of the absolute values of the negative
amounts, the balance their difference.  In every case the balance is the
Number difference of the two totals, and `updateSummary` shows the totals of
the list it selects. -/
theorem summarize_whole_amounts (ts : List Transaction)
    (hwhole : ∀ t ∈ ts, t.amount.den = 1)
    (hsum : (ts.map (fun t => |t.amount|)).sum < 2 ^ 53) :
    (summarize ts).totalIncome
      = JSNum.fin ((ts.filter (fun t => decide (0 < t.amount))).map (fun t => t.amount)).sum ∧
    (summarize ts).totalExpense
      = JSNum.fin ((ts.filter (fun t => decide (t.amount < 0))).map (fun t => |t.amount|)).sum ∧
    (summarize ts).balance
      = JSNum.fin (((ts.filter (fun t => decide (0 < t.amount))).map (fun t => t.amount)).sum -
          ((ts.filter (fun t => decide (t.amount < 0))).map (fun t => |t.amount|)).sum) ∧
    (summarize ts).balance = JSNum.sub (summarize ts).totalIncome (summarize ts).totalExpense ∧
    ∀ (tz : Zone) (now : Int) (s : CashBook),
      (updateSummary tz now s).summary = summarize (transactionsToUse tz now s) := by
  have hinc : ∀ q ∈ (ts.filter (fun t => decide (t.amount > 0))).map (fun t => t.amount),
      q.den = 1 ∧ 0 ≤ q := by
    intro q hq
    obtain ⟨t, ht, rfl⟩ := List.mem_map.mp hq
    obtain ⟨hmem, hpos⟩ := List.mem_filter.mp ht
    exact ⟨hwhole t hmem, le_of_lt (of_decide_eq_true hpos)⟩
  have hexp : ∀ q ∈ (ts.filter (fun t => decide (t.amount < 0))).map (fun t => |t.amount|),
      q.den = 1 ∧ 0 ≤ q := by
    intro q hq
    obtain ⟨t, ht, rfl⟩ := List.mem_map.mp hq
    obtain ⟨hmem, hneg⟩ := List.mem_filter.mp ht
    refine ⟨?_, abs_nonneg _⟩
    rw [abs_of_neg (of_decide_eq_true hneg), Rat.neg_den]
    exact hwhole t hmem
  obtain ⟨i, hi0, hi⟩ := sum_whole _ hinc
  obtain ⟨e, he0, he⟩ := sum_whole _ hexp
  have htot := sum_income_add_sum_expense ts
  rw [hi, he] at htot
  have hie : i + e < 9007199254740992 := by
    have : ((i + e : Int) : ℚ) < 9007199254740992 := by
      push_cast
      rw [htot]
      norm_num at hsum
      exact hsum
    exact_mod_cast this
  have hI : (summarize ts).totalIncome = JSNum.fin
      ((ts.filter (fun t => decide (t.amount > 0))).map (fun t => t.amount)).sum := by
    have h := foldl_add_whole _ 0 (le_refl _) hinc (by
      rw [hi]
      have : ((0 + i : Int) : ℚ) < 2 ^ 53 := by
        have h2 : (0 + i : Int) < 2 ^ 53 := by norm_num; omega
        exact_mod_cast h2
      simpa using this)
    rw [List.foldl_map] at h
    simpa [summarize] using h
  have hE : (summarize ts).totalExpense = JSNum.fin
      ((ts.filter (fun t => decide (t.amount < 0))).map (fun t => |t.amount|)).sum := by
    have h := foldl_add_whole _ 0 (le_refl _) hexp (by
      rw [he]
      have : ((0 + e : Int) : ℚ) < 2 ^ 53 := by
        have h2 : (0 + e : Int) < 2 ^ 53 := by norm_num; omega
        exact_mod_cast h2
      simpa using this)
    rw [List.foldl_map] at h
    simpa [summarize] using h
  have hB : (summarize ts).balance
      = JSNum.sub (summarize ts).totalIncome (summarize ts).totalExpense := rfl
  refine ⟨hI, hE, ?_, hB, fun _ _ _ => rfl⟩
  rw [hB, hI, hE]
  show JSNum.sub (JSNum.fin _) (JSNum.fin _) = _
  rw [JSNum.sub_fin]
  simp only [gt_iff_lt] at hi he
  rw [hi, he, ← sub_eq_add_neg, ← Int.cast_sub]
  exact JSNum.roundDouble_int_small _ (by norm_num; omega)

/-- The example of C7: the single record of amount -50 has income 0,
expense 50 and balance -50. -/
theorem summarize_whole_amounts_witness :
    (∀ t ∈ [coffee], t.amount.den = 1) ∧
    ([coffee].map (fun t => |t.amount|)).sum < 2 ^ 53 ∧
    (summarize [coffee]).totalIncome = JSNum.fin 0 ∧
    (summarize [coffee]).totalExpense = JSNum.fin 50 ∧
    (summarize [coffee]).balance = JSNum.fin (-50) := by
  obtain ⟨hI, hE, hB, _, _⟩ :=
    summarize_whole_amounts [coffee] (by decide) (by decide!)
  exact ⟨by decide, by decide!, hI.trans (by decide!), hE.trans (by decide!),
    hB.trans (by decide!)⟩

/-- The summary of the single record of amount -50, evaluated. -/
theorem summarize_coffee :
    summarize [coffee] =
      { totalIncome := JSNum.fin 0, totalExpense := JSNum.fin 50, balance := JSNum.fin (-50) } := by
  decide!

/-! ## Time windows -/

/-- The daily window is the local day of `now`: from its local midnight to the
next one. -/
theorem timeWindow_daily (tz : Int) (now : Nat) (htz : -1440 ≤ tz) :
    timeWindow (fixedZone tz) now Selector.daily =
      some (Day ((now : Int) + localTZA tz) * msPerDay - localTZA tz,
            (Day ((now : Int) + localTZA tz) + 1) * msPerDay - localTZA tz) := by
  have hoff : -msPerDay ≤ (fixedZone tz).utcOffset now := by
    show -msPerDay ≤ localTZA tz
    unfold msPerDay localTZA
    omega
  have hz := Day_local_ge (fixedZone tz) now hoff
  have h0 := newDate_getters (fixedZone tz) now 0 (by omega)
  have h1 := newDate_getters (fixedZone tz) now 1 (by omega)
  rw [add_zero] at h0
  simp only [timeWindow, h0, h1, add_zero]
  rfl

/-- East of UTC (and at UTC) the comparison of line 196 against a window of
local midnights `[S, E)` keeps exactly the dates `S ≤ d < E`. -/
theorem window_test_east (tz S E d : Int) (h0 : 0 ≤ tz) (h1 : tz < 1440) :
    (S * msPerDay - localTZA tz ≤ parseDate d ∧ parseDate d < E * msPerDay - localTZA tz)
      ↔ (S ≤ d ∧ d < E) := by
  unfold parseDate msPerDay localTZA
  omega

/-- West of UTC the same comparison keeps the dates `S + 1 ≤ d < E + 1`: the
window is one day late. -/
theorem window_test_west (tz S E d : Int) (h0 : tz < 0) (h1 : -1440 < tz) :
    (S * msPerDay - localTZA tz ≤ parseDate d ∧ parseDate d < E * msPerDay - localTZA tz)
      ↔ (S + 1 ≤ d ∧ d < E + 1) := by
  unfold parseDate msPerDay localTZA
  omega

/-- East of UTC the daily filter keeps a record iff its date is the local day
of `now`. -/
theorem daily_filter_east (tz : Int) (now : Nat) (h0 : 0 ≤ tz) (h1 : tz < 1440)
    (ts : List Transaction) (t : Transaction) :
    t ∈ getTimeFilteredTransactions (fixedZone tz) now Selector.daily ts
      ↔ t ∈ ts ∧ t.date = Day ((now : Int) + localTZA tz) := by
  unfold getTimeFilteredTransactions
  rw [timeWindow_daily tz now (by omega)]
  simp only [List.mem_filter, decide_eq_true_eq]
  rw [window_test_east tz _ _ _ h0 h1]
  constructor
  · rintro ⟨hm, ha, hb⟩
    exact ⟨hm, by omega⟩
  · rintro ⟨hm, he⟩
    exact ⟨hm, by omega, by omega⟩

/-- West of UTC the daily filter keeps a record iff its date is the day after
the local day of `now`. -/
theorem daily_filter_west (tz : Int) (now : Nat) (h0 : tz < 0) (h1 : -1440 < tz)
    (ts : List Transaction) (t : Transaction) :
    t ∈ getTimeFilteredTransactions (fixedZone tz) now Selector.daily ts
      ↔ t ∈ ts ∧ t.date = Day ((now : Int) + localTZA tz) + 1 := by
  unfold getTimeFilteredTransactions
  rw [timeWindow_daily tz now (by omega)]
  simp only [List.mem_filter, decide_eq_true_eq]
  rw [window_test_west tz _ _ _ h0 h1]
  constructor
  · rintro ⟨hm, ha, hb⟩
    exact ⟨hm, by omega⟩
  · rintro ⟨hm, he⟩
    exact ⟨hm, by omega, by omega⟩

/-- C9, evaluated five hours west of UTC at 2024-03-10 12:00 local time: the
local date is 2024-03-10, yet the daily filter drops the record dated
2024-03-10 (the start day) and keeps the record dated 2024-03-11 (the end
day). -/
theorem daily_window_shifted_west_of_utc :
    getFullYear (fixedZone (-300)) 1710090000000 = 2024 ∧
    getMonth (fixedZone (-300)) 1710090000000 = 2 ∧
    getDate (fixedZone (-300)) 1710090000000 = 10 ∧
    coffee.date = isoDate 2024 3 10 ∧ lunch.date = isoDate 2024 3 11 ∧
    timeWindow (fixedZone (-300)) 1710090000000 Selector.daily =
      some (parseDate (isoDate 2024 3 10) + 18000000,
            parseDate (isoDate 2024 3 11) + 18000000) ∧
    getTimeFilteredTransactions (fixedZone (-300)) 1710090000000 Selector.daily [coffee, lunch]
      = [lunch] := by
  decide

/-- C10 as stated fails where the clocks change during the week.  In the zone
`azores` on Wednesday 2024-10-23 12:00 UTC the weekly window starts at local
midnight of Monday 2024-10-21 (00:00 UTC) and ends at local midnight of Monday
2024-10-28, which is 01:00 UTC because summer time ended on the 27th: the
window is seven days and one hour long, and the filter keeps the records of
eight dates, 2024-10-21 to 2024-10-28. -/
theorem clock_change_lengthens_week :
    getDay azores 1729684800000 = 3 ∧
    timeWindow azores 1729684800000 Selector.weekly
      = some (1729468800000, 1730077200000) ∧
    (1729468800000 : Int) = parseDate (isoDate 2024 10 21) ∧
    (1730077200000 : Int) = parseDate (isoDate 2024 10 28) + 3600000 ∧
    (1730077200000 : Int) - 1729468800000 = 7 * msPerDay + 3600000 ∧
    (1730077200000 : Int) ≠ 1729468800000 + 7 * msPerDay ∧
    ((getTimeFilteredTransactions azores 1729684800000 Selector.weekly
        ((List.range 10).map (fun i => { rent with date := isoDate 2024 10 20 + i }))).map
      (fun t => t.date)) = (List.range 8).map (fun i => isoDate 2024 10 21 + (i : Int)) := by
  decide

/-- C10 as amended: the weekly window in a regular zone.  With `dow = getDay`
of the reference instant and `diffToMonday = -6` for a Sunday and `1 - dow`
otherwise, the window starts at local midnight of the reference day plus
`diffToMonday`; that day is a Monday, 0 to 6 days before the reference day, and
for a Sunday it is 6 days earlier.  The window ends at local midnight of the
day 7 days after the start day, so it holds exactly the instants of seven
local days, the reference instant among them.  Its length in milliseconds is
7 days plus the difference of the offsets at the two midnights: exactly 7 days
when they are equal. -/
theorem weekly_window (tz : Zone) (now : Nat) (hreg : Regular tz)
    (htz : -msPerDay ≤ tz.utcOffset now) :
    ∃ startDate endDate : Int,
      timeWindow tz now Selector.weekly = some (startDate, endDate) ∧
      0 ≤ getDay tz now ∧ getDay tz now ≤ 6 ∧
      startDate = UTC tz (Day (LocalTime tz startDate) * msPerDay) ∧
      Day (LocalTime tz startDate) = Day (LocalTime tz now) +
        (if getDay tz now = 0 then -6 else 1 - getDay tz now) ∧
      getDay tz startDate = 1 ∧
      Day (LocalTime tz now) - 6 ≤ Day (LocalTime tz startDate) ∧
      Day (LocalTime tz startDate) ≤ Day (LocalTime tz now) ∧
      endDate = UTC tz ((Day (LocalTime tz startDate) + 7) * msPerDay) ∧
      Day (LocalTime tz endDate) = Day (LocalTime tz startDate) + 7 ∧
      (∀ t : Int, (startDate ≤ t ∧ t < endDate) ↔
        (Day (LocalTime tz startDate) ≤ Day (LocalTime tz t) ∧
          Day (LocalTime tz t) < Day (LocalTime tz startDate) + 7)) ∧
      endDate - startDate = 7 * msPerDay +
        (tz.localOffset (Day (LocalTime tz startDate) * msPerDay) -
          tz.localOffset ((Day (LocalTime tz startDate) + 7) * msPerDay)) ∧
      (tz.localOffset (Day (LocalTime tz startDate) * msPerDay) =
          tz.localOffset ((Day (LocalTime tz startDate) + 7) * msPerDay) →
        endDate = startDate + 7 * msPerDay) ∧
      startDate ≤ now ∧ (now : Int) < endDate ∧
      (getDay tz now = 0 →
        Day (LocalTime tz startDate) = Day (LocalTime tz now) - 6) := by
  have hz := Day_local_ge tz now htz
  have hdow0 : 0 ≤ getDay tz now := by unfold getDay WeekDay; omega
  have hdow6 : getDay tz now ≤ 6 := by unfold getDay WeekDay; omega
  have hdow : getDay tz now = (Day (LocalTime tz now) + 4) % 7 := rfl
  generalize hdiff : (if getDay tz now = 0 then (-6 : Int) else 1 - getDay tz now) = diff
  have hd0 : -6 ≤ diff := by rw [← hdiff]; split_ifs <;> omega
  have hd1 : diff ≤ 0 := by rw [← hdiff]; split_ifs <;> omega
  have hstart := newDate_getters tz now diff (by omega)
  have hday := Day_local_midnight tz hreg (Day (LocalTime tz now) + diff)
  have hday7 := Day_local_midnight tz hreg (Day (LocalTime tz now) + diff + 7)
  have hend := newDate_getters tz (UTC tz ((Day (LocalTime tz now) + diff) * msPerDay)) 7
    (by rw [hday]; omega)
  rw [hday] at hend
  have hmon : (Day (LocalTime tz now) + diff + 4) % 7 = 1 := by
    rw [← hdiff, hdow]; split_ifs <;> omega
  have hlen : UTC tz ((Day (LocalTime tz now) + diff + 7) * msPerDay)
      - UTC tz ((Day (LocalTime tz now) + diff) * msPerDay) = 7 * msPerDay +
        (tz.localOffset ((Day (LocalTime tz now) + diff) * msPerDay) -
          tz.localOffset ((Day (LocalTime tz now) + diff + 7) * msPerDay)) := by
    unfold UTC
    ring
  have hin : ∀ t : Int, (UTC tz ((Day (LocalTime tz now) + diff) * msPerDay) ≤ t ∧
      t < UTC tz ((Day (LocalTime tz now) + diff + 7) * msPerDay)) ↔
      (Day (LocalTime tz now) + diff ≤ Day (LocalTime tz t) ∧
        Day (LocalTime tz t) < Day (LocalTime tz now) + diff + 7) := by
    intro t
    rw [← hreg.1 (Day (LocalTime tz now) + diff) t, ← not_le, ← not_le,
      ← hreg.1 (Day (LocalTime tz now) + diff + 7) t]
  refine ⟨UTC tz ((Day (LocalTime tz now) + diff) * msPerDay),
    UTC tz ((Day (LocalTime tz now) + diff + 7) * msPerDay), ?_, hdow0, hdow6,
    ?_, ?_, ?_, ?_, ?_, ?_, ?_, ?_, ?_, ?_, ?_, ?_, ?_⟩
  · simp only [timeWindow, hdiff, hstart, hend]
  · rw [hday]
  · rw [hday]
  · unfold getDay WeekDay
    rw [hday]; exact hmon
  · rw [hday]; omega
  · rw [hday]; omega
  · rw [hday]
  · rw [hday7, hday]
  · rw [hday]; exact hin
  · rw [hday]; exact hlen
  · rw [hday]
    intro heq
    rw [heq] at hlen
    omega
  · exact ((hin now).mpr ⟨by omega, by omega⟩).1
  · exact ((hin now).mpr ⟨by omega, by omega⟩).2
  · intro h0
    rw [hday, ← hdiff, if_pos h0]
    omega

/-- The amended C10 in the zone `azores` on Wednesday 2024-10-23, the week in
which summer time ended: the window runs from local midnight of Monday
2024-10-21 to local midnight of Monday 2024-10-28, seven local days later. -/
theorem weekly_window_witness :
    Regular azores ∧ -msPerDay ≤ azores.utcOffset ((1729684800000 : Nat) : Int) ∧
    timeWindow azores ((1729684800000 : Nat) : Int) Selector.weekly
      = some (1729468800000, 1730077200000) ∧
    getDay azores 1729468800000 = 1 ∧
    Day (LocalTime azores 1729468800000) = isoDate 2024 10 21 ∧
    Day (LocalTime azores 1730077200000) = Day (LocalTime azores 1729468800000) + 7 := by
  obtain ⟨st, en, hw, _, _, _, _, hmon, _, _, _, hseven, _, _, _, _, _, _⟩ :=
    weekly_window azores 1729684800000 regular_azores (by decide)
  have hval : timeWindow azores ((1729684800000 : Nat) : Int) Selector.weekly
      = some (1729468800000, 1730077200000) := by
    decide
  have hpair := Option.some.inj (hw.symm.trans hval)
  have hst : st = 1729468800000 := congrArg Prod.fst hpair
  have hen : en = 1730077200000 := congrArg Prod.snd hpair
  rw [hst] at hmon hseven
  rw [hen] at hseven
  exact ⟨regular_azores, by decide, hval, hmon, by decide, hseven⟩

/-! ## Updating, deleting, the stored order and the shown totals -/

/-- A valid submission while a record is being edited, under a selector other
than `all`: the collection is mapped position by position, the record with
the edited id being replaced by the new record, which carries that id. -/
theorem addTransaction_update_of_ne_all (tz : Zone) (now : Nat) (form : Form) (s : CashBook)
    (a : ℚ) (id : String) (hid : id ≠ "") (hedit : s.currentEditingId = some id)
    (hf : s.currentFilter ≠ Selector.all)
    (hdesc : jsTrim form.description ≠ "") (hamt : form.amount = some a) (hpos : 0 < a) :
    (addTransaction tz now form s).transactions =
      s.transactions.map (fun t =>
        if t.id = id then mkTransaction now (some id) (jsTrim form.description) a form else t) ∧
    (mkTransaction now (some id) (jsTrim form.description) a form).id = id := by
  have htr : truthy (some id) = true := by simp [truthy, hid]
  constructor
  · rw [addTransaction_valid tz now form s a hdesc hamt hpos, hedit]
    simp only [htr, if_true]
    rw [renderTransactions_transactions_of_ne_all]
    · simp [updateSummary, saveTransactions]
    · exact hf
  · simp [mkTransaction, htr]

/-- C3, evaluated under the selector `all`: the book holds `[coffee, rent]`,
`coffee` is edited to the date 2023-12-25, and after the submission the
collection is `[rent, coffeeEdited]`: the updated record has left position 0
and `rent`, whose id differs, has moved from position 1 to position 0. -/
theorem addTransaction_update_moves_record :
    (editTransaction "1710060000000" (construct (fixedZone 330) 1710000000000 [coffee, rent])).transactions
      = [coffee, rent] ∧
    (editTransaction "1710060000000" (construct (fixedZone 330) 1710000000000 [coffee, rent])).currentEditingId
      = some "1710060000000" ∧
    (addTransaction (fixedZone 330) 1710070000000 editedForm
      (editTransaction "1710060000000" (construct (fixedZone 330) 1710000000000 [coffee, rent]))).transactions
      = [rent, coffeeEdited] ∧
    (addTransaction (fixedZone 330) 1710070000000 editedForm
      (editTransaction "1710060000000" (construct (fixedZone 330) 1710000000000 [coffee, rent]))).storage
      = [coffeeEdited, rent] := by
  decide

theorem deleteTransaction_confirmed (tz : Zone) (now : Int) (id : String) (s : CashBook)
    (hinv : RenderInv s) :
    (deleteTransaction tz now true id s).transactions
      = s.transactions.filter (fun t => decide (t.id ≠ id)) ∧
    (deleteTransaction tz now true id s).storage
      = s.transactions.filter (fun t => decide (t.id ≠ id)) ∧
    (deleteTransaction tz now true id s).currentEditingId = s.currentEditingId ∧
    (deleteTransaction tz now true id s).currentFilter = s.currentFilter ∧
    RenderInv (deleteTransaction tz now true id s) := by
  unfold deleteTransaction
  simp only [if_true]
  refine ⟨?_, ?_, ?_, ?_, renderTransactions_renderInv _ _ _⟩
  · rw [renderTransactions_transactions_of_inv]
    · rfl
    · intro hall
      exact List.Pairwise.sublist (List.filter_sublist _) (hinv hall)
  · rw [(renderTransactions_frame _ _ _).2.2.1]; rfl
  · rw [(renderTransactions_frame _ _ _).2.1]; rfl
  · rw [(renderTransactions_frame _ _ _).1]; rfl

/-- C4: after a confirmed `deleteTransaction(id)` no record of the collection
has the id, the collection is the old one without the records of that id (the
others keep their relative order), and so is the stored copy; deleting the
same id again leaves the collection, the stored copy, the editing id and the
selector as they are. -/
theorem deleteTransaction_removes (tz : Zone) (now now2 : Int) (id : String) (s : CashBook)
    (hinv : RenderInv s) :
    (∀ t ∈ (deleteTransaction tz now true id s).transactions, t.id ≠ id) ∧
    (deleteTransaction tz now true id s).transactions
      = s.transactions.filter (fun t => decide (t.id ≠ id)) ∧
    (deleteTransaction tz now true id s).transactions.Sublist s.transactions ∧
    (∀ t ∈ s.transactions, t.id ≠ id → t ∈ (deleteTransaction tz now true id s).transactions) ∧
    (deleteTransaction tz now true id s).storage
      = (deleteTransaction tz now true id s).transactions ∧
    (deleteTransaction tz now2 true id (deleteTransaction tz now true id s)).transactions
      = (deleteTransaction tz now true id s).transactions ∧
    (deleteTransaction tz now2 true id (deleteTransaction tz now true id s)).storage
      = (deleteTransaction tz now true id s).storage ∧
    (deleteTransaction tz now2 true id (deleteTransaction tz now true id s)).currentEditingId
      = (deleteTransaction tz now true id s).currentEditingId ∧
    (deleteTransaction tz now2 true id (deleteTransaction tz now true id s)).currentFilter
      = (deleteTransaction tz now true id s).currentFilter := by
  obtain ⟨h1, h2, _, _, hinv1⟩ := deleteTransaction_confirmed tz now id s hinv
  obtain ⟨k1, k2, k3, k4, _⟩ :=
    deleteTransaction_confirmed tz now2 id (deleteTransaction tz now true id s) hinv1
  have hidem : (s.transactions.filter (fun t => decide (t.id ≠ id))).filter
      (fun t => decide (t.id ≠ id)) = s.transactions.filter (fun t => decide (t.id ≠ id)) := by
    rw [List.filter_filter]; simp
  refine ⟨?_, h1, ?_, ?_, ?_, ?_, ?_, k3, k4⟩
  · intro t ht
    rw [h1] at ht
    simpa using (List.mem_filter.mp ht).2
  · rw [h1]; exact List.filter_sublist _
  · intro t ht hne
    rw [h1]
    exact List.mem_filter.mpr ⟨ht, by simpa using hne⟩
  · rw [h1, h2]
  · rw [k1, h1, hidem]
  · rw [k2, h2, h1, hidem]

/-- Deleting `coffee` from the book `[coffee, rent]` leaves `[rent]`, and a
second deletion changes nothing. -/
theorem deleteTransaction_removes_witness :
    RenderInv (construct (fixedZone 330) 1710000000000 [coffee, rent]) ∧
    (deleteTransaction (fixedZone 330) 1710070000000 true "1710060000000"
      (construct (fixedZone 330) 1710000000000 [coffee, rent])).transactions = [rent] ∧
    (deleteTransaction (fixedZone 330) 1710080000000 true "1710060000000"
      (deleteTransaction (fixedZone 330) 1710070000000 true "1710060000000"
        (construct (fixedZone 330) 1710000000000 [coffee, rent]))).transactions = [rent] := by
  have hinv : RenderInv (construct (fixedZone 330) 1710000000000 [coffee, rent]) :=
    renderTransactions_renderInv _ _ _
  obtain ⟨_, h1, _, _, _, h2, _⟩ :=
    deleteTransaction_removes (fixedZone 330) 1710070000000 1710080000000 "1710060000000"
      (construct (fixedZone 330) 1710000000000 [coffee, rent]) hinv
  have hval : (deleteTransaction (fixedZone 330) 1710070000000 true "1710060000000"
      (construct (fixedZone 330) 1710000000000 [coffee, rent])).transactions = [rent] := by
    rw [h1]; decide
  exact ⟨hinv, hval, by rw [h2, hval]⟩

/-- C5 as stated fails: `coffee` is opened for editing and then deleted, so the
editing id names no record of the collection `[rent]`; the valid submission
that follows raises no alert, clears the editing id and saves the collection,
exactly as an accepted update does. -/
theorem addTransaction_missing_id_accepted :
    (deleteTransaction (fixedZone 330) 1710070000000 true "1710060000000"
      (editTransaction "1710060000000"
        (construct (fixedZone 330) 1710000000000 [coffee, rent]))).currentEditingId
      = some "1710060000000" ∧
    (deleteTransaction (fixedZone 330) 1710070000000 true "1710060000000"
      (editTransaction "1710060000000"
        (construct (fixedZone 330) 1710000000000 [coffee, rent]))).transactions = [rent] ∧
    rent.id ≠ "1710060000000" ∧
    (addTransaction (fixedZone 330) 1710080000000 editedForm
      (deleteTransaction (fixedZone 330) 1710070000000 true "1710060000000"
        (editTransaction "1710060000000"
          (construct (fixedZone 330) 1710000000000 [coffee, rent])))).alerts = [] ∧
    (addTransaction (fixedZone 330) 1710080000000 editedForm
      (deleteTransaction (fixedZone 330) 1710070000000 true "1710060000000"
        (editTransaction "1710060000000"
          (construct (fixedZone 330) 1710000000000 [coffee, rent])))).currentEditingId = none ∧
    (addTransaction (fixedZone 330) 1710080000000 editedForm
      (deleteTransaction (fixedZone 330) 1710070000000 true "1710060000000"
        (editTransaction "1710060000000"
          (construct (fixedZone 330) 1710000000000 [coffee, rent])))).storage = [rent] := by
  decide

/-- C5 as amended: a valid submission while the editing id names no record is
accepted silently: no alert is raised, the editing id is cleared and the
selector kept, the collection is left as it was, and the handler saves it as
after every accepted submission, so that the stored copy is now the
collection (it is rewritten, whatever it held before). -/
theorem addTransaction_missing_id_silent (tz : Zone) (now : Nat) (form : Form) (s : CashBook)
    (a : ℚ) (id : String) (hinv : RenderInv s) (hid : id ≠ "")
    (hedit : s.currentEditingId = some id) (habsent : ∀ t ∈ s.transactions, t.id ≠ id)
    (hdesc : jsTrim form.description ≠ "") (hamt : form.amount = some a) (hpos : 0 < a) :
    (addTransaction tz now form s).transactions = s.transactions ∧
    (addTransaction tz now form s).storage = s.transactions ∧
    (addTransaction tz now form s).alerts = s.alerts ∧
    (addTransaction tz now form s).currentEditingId = none ∧
    (addTransaction tz now form s).currentFilter = s.currentFilter := by
  have htr : truthy (some id) = true := by simp [truthy, hid]
  have hmap : s.transactions.map (fun t =>
      if some t.id = some id then mkTransaction now (some id) (jsTrim form.description) a form
      else t) = s.transactions := by
    conv_rhs => rw [← List.map_id s.transactions]
    apply List.map_congr_left
    intro t ht
    have hne : ¬ (some t.id = some id) := fun h => habsent t ht (Option.some.inj h)
    simp [hne]
  rw [addTransaction_valid tz now form s a hdesc hamt hpos, hedit]
  simp only [htr, if_true, hmap]
  refine ⟨?_, ?_, ?_, ?_, ?_⟩
  · rw [renderTransactions_transactions_of_inv]
    · rfl
    · exact hinv
  · rw [(renderTransactions_frame _ _ _).2.2.1]; rfl
  · rw [(renderTransactions_frame _ _ _).2.2.2.2]; rfl
  · rw [(renderTransactions_frame _ _ _).2.1]; rfl
  · rw [(renderTransactions_frame _ _ _).1]; rfl

/-- The amended C5 at the state of the counterexample. -/
theorem addTransaction_missing_id_silent_witness :
    (addTransaction (fixedZone 330) 1710080000000 editedForm
      (deleteTransaction (fixedZone 330) 1710070000000 true "1710060000000"
        (editTransaction "1710060000000"
          (construct (fixedZone 330) 1710000000000 [coffee, rent])))).transactions
      = (deleteTransaction (fixedZone 330) 1710070000000 true "1710060000000"
        (editTransaction "1710060000000"
          (construct (fixedZone 330) 1710000000000 [coffee, rent]))).transactions :=
  (addTransaction_missing_id_silent (fixedZone 330) 1710080000000 editedForm
    (deleteTransaction (fixedZone 330) 1710070000000 true "1710060000000"
      (editTransaction "1710060000000" (construct (fixedZone 330) 1710000000000 [coffee, rent])))
    60 "1710060000000"
    (by unfold deleteTransaction; rw [if_pos rfl]; exact renderTransactions_renderInv _ _ _)
    (by decide) (by decide) (by decide) (by decide) rfl (by norm_num)).1

/-- The stored copy is rewritten by a submission whose editing id names no
record: in the reachable state `staleEditBook` the collection is
`[lunch, rent]` and the stored copy `[rent, lunch]`; after the submission the
collection is the same and the stored copy is `[lunch, rent]`. -/
theorem stale_id_submission_rewrites_storage :
    Reachable (fixedZone 330) staleEditBook ∧
    staleEditBook.currentEditingId = some "1710060000000" ∧
    staleEditBook.transactions = [lunch, rent] ∧
    staleEditBook.storage = [rent, lunch] ∧
    (addTransaction (fixedZone 330) 1710300000000 editedForm staleEditBook).transactions
      = [lunch, rent] ∧
    (addTransaction (fixedZone 330) 1710300000000 editedForm staleEditBook).storage
      = [lunch, rent] ∧
    (addTransaction (fixedZone 330) 1710300000000 editedForm staleEditBook).alerts = [] :=
  ⟨Reachable.filter _ _ (Reachable.delete _ _ _ (Reachable.edit _ (Reachable.add _ _
      (Reachable.add _ _ (Reachable.filter _ _ (Reachable.construct _ _)))))),
    by decide⟩

/-- A valid creation under a selector other than `all` appends: the
collection afterwards is the old collection followed by the new record. -/
theorem create_appends_of_ne_all (tz : Zone) (now : Nat) (form : Form) (s : CashBook)
    (a : ℚ) (hedit : s.currentEditingId = none) (hf : s.currentFilter ≠ Selector.all)
    (hdesc : jsTrim form.description ≠ "") (hamt : form.amount = some a) (hpos : 0 < a) :
    (addTransaction tz now form s).transactions =
      s.transactions ++ [mkTransaction now none (jsTrim form.description) a form] := by
  rw [addTransaction_valid tz now form s a hdesc hamt hpos, hedit]
  simp only [truthy]
  rw [renderTransactions_transactions_of_ne_all]
  · rfl
  · exact hf

/-- C6, evaluated under the selector `all`: the book holds `[rent]`; creating
`coffee` stores `[rent, coffee]`, but the collection held afterwards is
`[coffee, rent]`: rendering has sorted it in place.  Likewise selecting `all`
on the collection `[rent, coffee]` reorders it. -/
theorem render_reorders_collection :
    (construct (fixedZone 330) 1710000000000 [rent]).transactions = [rent] ∧
    (construct (fixedZone 330) 1710000000000 [rent]).currentFilter = Selector.all ∧
    (addTransaction (fixedZone 330) 1710060000000 coffeeForm
      (construct (fixedZone 330) 1710000000000 [rent])).storage = [rent, coffee] ∧
    (addTransaction (fixedZone 330) 1710060000000 coffeeForm
      (construct (fixedZone 330) 1710000000000 [rent])).transactions = [coffee, rent] ∧
    (setFilter (fixedZone 330) 1710070000000 Selector.all
      { emptyBook with transactions := [rent, coffee], currentFilter := Selector.yearly }
      ).transactions = [coffee, rent] := by
  decide

/-- Selecting a filter never changes the totals shown. -/
theorem setFilter_summary (tz : Zone) (now : Int) (filter : Selector) (s : CashBook) :
    (setFilter tz now filter s).summary = s.summary ∧
    (setFilter tz now filter s).currentFilter = filter := by
  unfold setFilter
  exact ⟨(renderTransactions_frame _ _ _).2.2.2.1, (renderTransactions_frame _ _ _).1⟩

/-- C8, evaluated: the book holds `rent`, dated 2024-01-01; on 2024-03-10 the
selector `daily` is chosen.  The totals shown stay those of the whole
collection (expense 12000), while the time-filtered subset is empty and its
totals are zero. -/
theorem setFilter_stale_summary :
    (construct (fixedZone 330) 1710060000000 [rent]).summary
      = { totalIncome := JSNum.fin 0, totalExpense := JSNum.fin 12000,
          balance := JSNum.fin (-12000) } ∧
    (setFilter (fixedZone 330) 1710060000000 Selector.daily
      (construct (fixedZone 330) 1710060000000 [rent])).currentFilter = Selector.daily ∧
    (setFilter (fixedZone 330) 1710060000000 Selector.daily
      (construct (fixedZone 330) 1710060000000 [rent])).summary
      = { totalIncome := JSNum.fin 0, totalExpense := JSNum.fin 12000,
          balance := JSNum.fin (-12000) } ∧
    getTimeFilteredTransactions (fixedZone 330) 1710060000000 Selector.daily
      (setFilter (fixedZone 330) 1710060000000 Selector.daily
        (construct (fixedZone 330) 1710060000000 [rent])).transactions = [] ∧
    summarize (getTimeFilteredTransactions (fixedZone 330) 1710060000000 Selector.daily
      (setFilter (fixedZone 330) 1710060000000 Selector.daily
        (construct (fixedZone 330) 1710060000000 [rent])).transactions)
      = { totalIncome := JSNum.fin 0, totalExpense := JSNum.fin 0, balance := JSNum.fin 0 } := by
  have hsum : (construct (fixedZone 330) 1710060000000 [rent]).summary
      = { totalIncome := JSNum.fin 0, totalExpense := JSNum.fin 12000,
          balance := JSNum.fin (-12000) } := by
    unfold construct
    rw [(renderTransactions_frame _ _ _).2.2.2.1]
    decide!
  have hempty : getTimeFilteredTransactions (fixedZone 330) 1710060000000 Selector.daily
      (setFilter (fixedZone 330) 1710060000000 Selector.daily
        (construct (fixedZone 330) 1710060000000 [rent])).transactions = [] := by
    decide
  refine ⟨hsum, (setFilter_summary _ _ _ _).2, ?_, hempty, ?_⟩
  · rw [(setFilter_summary _ _ _ _).1, hsum]
  · rw [hempty]
    decide!

end CashBook

namespace Calculator

/-- The rounding step of line 719 leaves an integer of absolute value at most
`23058430092` as it is: its product with `10 ^ 8` is still a double. -/
theorem roundResult_int (z : Int) (h : z.natAbs ≤ 23058430092) :
    roundResult (JSNum.fin (z : ℚ)) = JSNum.fin (z : ℚ) := by
  have hmul : JSNum.mul (JSNum.fin (z : ℚ)) (JSNum.fin 100000000)
      = JSNum.fin ((z * 100000000 : Int) : ℚ) := by
    have hcast : (z : ℚ) * 100000000 = ((z * 100000000 : Int) : ℚ) := by push_cast; rfl
    rw [JSNum.mul_fin, hcast]
    apply JSNum.roundDouble_int (z * 100000000) 8
    · rw [Int.natAbs_mul]
      exact Dvd.dvd.mul_left (by decide) _
    · rw [Int.natAbs_mul]
      have : (100000000 : Int).natAbs = 100000000 := by decide
      rw [this]
      have h2 : (2 : Nat) ^ (53 + 8) = 2305843009213693952 := by decide
      rw [h2]
      omega
    · decide
  have hdiv : JSNum.div (JSNum.fin ((z * 100000000 : Int) : ℚ)) (JSNum.fin 100000000)
      = JSNum.fin (z : ℚ) := by
    have hne : (100000000 : ℚ) ≠ 0 := by norm_num
    have hq : ((z * 100000000 : Int) : ℚ) / 100000000 = (z : ℚ) := by
      push_cast
      field_simp
    rw [JSNum.div_fin _ _ hne, hq]
    apply JSNum.roundDouble_int_small
    have h2 : (2 : Nat) ^ 53 = 9007199254740992 := by decide
    rw [h2]
    omega
  unfold roundResult
  rw [hmul, JSNum.round_int, hdiv]

end Calculator

namespace Calculator

/-! ## The calculator: integers as strings -/

/-- An integer below `2 ^ 53` in absolute value prints as its decimal
writing. -/
theorem toString_int (z : Int) (h : z.natAbs < 2 ^ 53) :
    JSNum.toString (JSNum.fin (z : ℚ)) = intString z := by
  have h53 : (2 : Int) ^ 53 = 9007199254740992 := by decide
  have h53n : (2 : Nat) ^ 53 = 9007199254740992 := by decide
  rw [h53n] at h
  show (if (z : ℚ) = 0 then "0" else if (z : ℚ) < 0 then "-" ++ JSNum.posToString (-(z : ℚ))
    else JSNum.posToString (z : ℚ)) = intString z
  unfold intString
  by_cases h0 : z = 0
  · subst h0
    simp
    rfl
  · have hq0 : ¬ ((z : ℚ) = 0) := by exact_mod_cast h0
    rw [if_neg hq0]
    by_cases hneg : z < 0
    · have hqneg : (z : ℚ) < 0 := by exact_mod_cast hneg
      rw [if_pos hqneg, if_pos hneg]
      have hcast : (-(z : ℚ)) = ((-z : Int) : ℚ) := by push_cast; rfl
      unfold JSNum.posToString
      rw [hcast]
      simp only [Rat.intCast_den, Rat.intCast_num, true_and]
      rw [if_pos (by rw [h53]; omega)]
      have : (-z).toNat = z.natAbs := by omega
      rw [this]
    · have hqneg : ¬ ((z : ℚ) < 0) := by
        intro hlt
        exact hneg (by exact_mod_cast hlt)
      rw [if_neg hqneg, if_neg hneg]
      unfold JSNum.posToString
      simp only [Rat.intCast_den, Rat.intCast_num, true_and]
      rw [if_pos (by rw [h53]; omega)]
      have : z.toNat = z.natAbs := by omega
      rw [this]

/-- The decimal writing of an integer below `2 ^ 53` in absolute value parses
back to it. -/
theorem parseFloat_intString (z : Int) (h : z.natAbs < 2 ^ 53) :
    JSNum.parseFloat (intString z) = JSNum.fin (z : ℚ) := by
  obtain ⟨cs, hrepr, hne, hd, hv⟩ := JSNum.repr_spec z.natAbs
  unfold intString
  by_cases hneg : z < 0
  · rw [if_pos hneg, hrepr]
    have happ : "-" ++ String.mk cs = String.mk ('-' :: cs) := rfl
    rw [happ, JSNum.parseFloat_neg_digits cs hne hd, hv]
    have hcast : (-((z.natAbs : Nat) : ℚ)) = (z : ℚ) := by
      rw [Nat.cast_natAbs, abs_of_neg hneg]
      push_cast
      ring
    rw [hcast]
    exact JSNum.roundDouble_int_small z h
  · rw [if_neg hneg, hrepr, JSNum.parseFloat_digits cs hne hd, hv]
    have hcast : ((z.natAbs : Nat) : ℚ) = (z : ℚ) := by
      rw [Nat.cast_natAbs, abs_of_nonneg (by omega)]
    rw [hcast]
    exact JSNum.roundDouble_int_small z h

end Calculator

namespace Calculator

/-! ## The calculator: keying in a number -/

theorem updateDisplay_frame (s : Calculator) :
    (updateDisplay s).currentInput = s.currentInput ∧
    (updateDisplay s).previousInput = s.previousInput ∧
    (updateDisplay s).operation = s.operation ∧
    (updateDisplay s).shouldResetDisplay = s.shouldResetDisplay ∧
    (updateDisplay s).alerts = s.alerts := by
  unfold updateDisplay
  simp only []
  split_ifs <;> exact ⟨rfl, rfl, rfl, rfl, rfl⟩

theorem digitChar_isDigit (d : Fin 10) :
    (digitChar d).isDigit = true ∧ (digitChar d).toNat - 48 = d.val := by
  revert d
  decide

theorem updateDisplay_currentInput (s : Calculator) :
    (updateDisplay s).currentInput = s.currentInput := (updateDisplay_frame s).1

theorem updateDisplay_previousInput (s : Calculator) :
    (updateDisplay s).previousInput = s.previousInput := (updateDisplay_frame s).2.1

theorem updateDisplay_operation (s : Calculator) :
    (updateDisplay s).operation = s.operation := (updateDisplay_frame s).2.2.1

theorem updateDisplay_shouldResetDisplay (s : Calculator) :
    (updateDisplay s).shouldResetDisplay = s.shouldResetDisplay :=
  (updateDisplay_frame s).2.2.2.1

theorem updateDisplay_alerts (s : Calculator) :
    (updateDisplay s).alerts = s.alerts := (updateDisplay_frame s).2.2.2.2

/-- The fields of the state after a digit key, when the digit replaces the
input. -/
theorem handleNumber_replace (d : Fin 10) (s : Calculator)
    (h : s.shouldResetDisplay = true ∨ (s.shouldResetDisplay = false ∧ s.currentInput = "0")) :
    (handleNumber d s).currentInput = String.mk [digitChar d] ∧
    (handleNumber d s).shouldResetDisplay = false ∧
    (handleNumber d s).previousInput = s.previousInput ∧
    (handleNumber d s).operation = s.operation ∧
    (handleNumber d s).alerts = s.alerts := by
  have hne : ¬ (("" : String) = "0") := by decide
  have hl : ("" : String).length < 12 := by decide
  unfold handleNumber
  simp only [updateDisplay_currentInput, updateDisplay_previousInput, updateDisplay_operation,
    updateDisplay_shouldResetDisplay, updateDisplay_alerts]
  rcases h with h | ⟨hf, hz⟩
  · rw [if_pos h]
    simp only []
    rw [if_neg hne, if_pos hl]
    exact ⟨rfl, rfl, rfl, rfl, rfl⟩
  · have hf' : ¬ (s.shouldResetDisplay = true) := by rw [hf]; decide
    rw [if_neg hf', if_pos hz]
    exact ⟨rfl, hf, rfl, rfl, rfl⟩

/-- The fields of the state after a digit key, when the digit is appended. -/
theorem handleNumber_push (d : Fin 10) (s : Calculator)
    (hf : s.shouldResetDisplay = false) (hz : s.currentInput ≠ "0")
    (hl : s.currentInput.length < 12) :
    (handleNumber d s).currentInput = s.currentInput.push (digitChar d) ∧
    (handleNumber d s).shouldResetDisplay = false ∧
    (handleNumber d s).previousInput = s.previousInput ∧
    (handleNumber d s).operation = s.operation ∧
    (handleNumber d s).alerts = s.alerts := by
  have hf' : ¬ (s.shouldResetDisplay = true) := by rw [hf]; decide
  unfold handleNumber
  simp only [updateDisplay_currentInput, updateDisplay_previousInput, updateDisplay_operation,
    updateDisplay_shouldResetDisplay, updateDisplay_alerts]
  rw [if_neg hf', if_neg hz, if_pos hl]
  exact ⟨rfl, hf, rfl, rfl, rfl⟩

/-- The first digit of a number, keyed in after an operator or on the input
`"0"`, replaces the input. -/
theorem handleNumber_first (d : Fin 10) (s : Calculator)
    (h : s.shouldResetDisplay = true ∨ (s.shouldResetDisplay = false ∧ s.currentInput = "0")) :
    Entered (handleNumber d s) d.val 1 ∧
    (handleNumber d s).previousInput = s.previousInput ∧
    (handleNumber d s).operation = s.operation ∧
    (handleNumber d s).alerts = s.alerts := by
  obtain ⟨hdig, hval⟩ := digitChar_isDigit d
  obtain ⟨h1, h2, h3, h4, h5⟩ := handleNumber_replace d s h
  refine ⟨⟨h2, [digitChar d], h1, by simp, ?_, by simp, ?_⟩, h3, h4, h5⟩
  · intro c hc
    rw [List.mem_singleton] at hc
    rw [hc]; exact hdig
  · show 10 * 0 + ((digitChar d).toNat - 48) = d.val
    rw [hval]; omega

/-- A further digit is appended, as long as fewer than 12 characters are
there. -/
theorem handleNumber_next (d : Fin 10) (s : Calculator) (v len : Nat)
    (h : Entered s v len) (hlen : len < 12) :
    Entered (handleNumber d s) (10 * v + d.val) (len + 1) ∧
    (handleNumber d s).previousInput = s.previousInput ∧
    (handleNumber d s).operation = s.operation ∧
    (handleNumber d s).alerts = s.alerts := by
  obtain ⟨hf, cs, hcs, hne, hd, hl, hv⟩ := h
  by_cases hz : s.currentInput = "0"
  · obtain ⟨he, h3, h4, h5⟩ := handleNumber_first d s (Or.inr ⟨hf, hz⟩)
    have hcs0 : cs = ['0'] := by
      rw [hcs] at hz
      exact congrArg String.data hz
    have hv0 : v = 0 := by
      rw [← hv, hcs0]; rfl
    obtain ⟨g1, cs1, g2, g3, g4, g5, g6⟩ := he
    exact ⟨⟨g1, cs1, g2, g3, g4, by omega, by rw [g6, hv0]; omega⟩, h3, h4, h5⟩
  · obtain ⟨hdig, hval⟩ := digitChar_isDigit d
    have hlen12 : s.currentInput.length < 12 := by
      rw [hcs]
      show cs.length < 12
      omega
    obtain ⟨h1, h2, h3, h4, h5⟩ := handleNumber_push d s hf hz hlen12
    have h1' : (handleNumber d s).currentInput = String.mk (cs ++ [digitChar d]) := by
      rw [h1, hcs]; rfl
    refine ⟨⟨h2, cs ++ [digitChar d], h1', by simp, ?_, ?_, ?_⟩, h3, h4, h5⟩
    · intro c hc
      rw [List.mem_append, List.mem_singleton] at hc
      rcases hc with hc | hc
      · exact hd c hc
      · rw [hc]; exact hdig
    · rw [List.length_append, List.length_singleton]; omega
    · rw [JSNum.digitsVal_append, hv, hval]

theorem run_append (xs ys : List Key) (s : Calculator) :
    run (xs ++ ys) s = run ys (run xs s) := by
  unfold run
  rw [List.foldl_append]

theorem run_cons (k : Key) (ks : List Key) (s : Calculator) :
    run (k :: ks) s = run ks (handleButtonClick k s) := rfl

theorem run_digits : ∀ (ds : List (Fin 10)) (s : Calculator) (v len : Nat),
    Entered s v len → len + ds.length ≤ 12 →
    Entered (run (digitKeys ds) s) (ds.foldl (fun acc d => 10 * acc + d.val) v)
        (len + ds.length) ∧
      (run (digitKeys ds) s).previousInput = s.previousInput ∧
      (run (digitKeys ds) s).operation = s.operation ∧
      (run (digitKeys ds) s).alerts = s.alerts
  | [], s, v, len, h, _ => ⟨h, rfl, rfl, rfl⟩
  | d :: ds, s, v, len, h, hl => by
    have hl' : len + (ds.length + 1) ≤ 12 := hl
    obtain ⟨he, h3, h4, h5⟩ := handleNumber_next d s v len h (by omega)
    obtain ⟨ge, g3, g4, g5⟩ := run_digits ds (handleNumber d s) _ _ he (by omega)
    have hrun : run (digitKeys (d :: ds)) s = run (digitKeys ds) (handleNumber d s) := rfl
    rw [hrun, List.foldl_cons, List.length_cons]
    have hlen : len + (ds.length + 1) = len + 1 + ds.length := by omega
    rw [hlen]
    exact ⟨ge, g3.trans h3, g4.trans h4, g5.trans h5⟩

/-- Keying in a non-empty sequence of at most 12 digits, after an operator or
on the input `"0"`, leaves an input that parses to the number written; the
previous operand, the pending operation and the alerts stay. -/
theorem enter_number (ds : List (Fin 10)) (s : Calculator) (hne : ds ≠ [])
    (hlen : ds.length ≤ 12)
    (h : s.shouldResetDisplay = true ∨ (s.shouldResetDisplay = false ∧ s.currentInput = "0")) :
    JSNum.parseFloat (run (digitKeys ds) s).currentInput
      = JSNum.fin ((digitsValue ds : Int) : ℚ) ∧
    (run (digitKeys ds) s).shouldResetDisplay = false ∧
    (run (digitKeys ds) s).previousInput = s.previousInput ∧
    (run (digitKeys ds) s).operation = s.operation ∧
    (run (digitKeys ds) s).alerts = s.alerts := by
  obtain ⟨d, rest, rfl⟩ := List.exists_cons_of_ne_nil hne
  have hl : rest.length + 1 ≤ 12 := hlen
  obtain ⟨he, h3, h4, h5⟩ := handleNumber_first d s h
  obtain ⟨ge, g3, g4, g5⟩ := run_digits rest (handleNumber d s) _ _ he (by omega)
  have hrun : run (digitKeys (d :: rest)) s = run (digitKeys rest) (handleNumber d s) := rfl
  have hval : digitsValue (d :: rest) = rest.foldl (fun acc d => 10 * acc + d.val) d.val := by
    unfold digitsValue
    rw [List.foldl_cons]
    simp
  rw [hrun, hval]
  obtain ⟨hf, cs, hcs, hcne, hd, hcl, hv⟩ := ge
  refine ⟨?_, hf, g3.trans h3, g4.trans h4, g5.trans h5⟩
  rw [hcs, JSNum.parseFloat_digits cs hcne hd, hv]
  have hlt := JSNum.digitsVal_lt cs hd
  rw [hv] at hlt
  have hpow : 10 ^ cs.length ≤ 10 ^ 12 := Nat.pow_le_pow_right (by decide) (by omega)
  have h12 : (10 : Nat) ^ 12 = 1000000000000 := by decide
  have h53 : (2 : Nat) ^ 53 = 9007199254740992 := by decide
  have hcast : ((rest.foldl (fun acc d => 10 * acc + d.val) d.val : Nat) : ℚ)
      = (((rest.foldl (fun acc d => 10 * acc + d.val) d.val : Nat) : Int) : ℚ) := by
    push_cast; rfl
  rw [hcast]
  apply JSNum.roundDouble_int_small
  rw [Int.natAbs_ofNat, h53]
  omega

end Calculator

namespace Calculator

/-! ## The calculator: division by zero and the use of the result -/

/-- With a pending `/` and a zero divisor `calculate` raises the alert and
clears everything. -/
theorem calculate_divide_by_zero (s : Calculator) (hop : s.operation = some Op.div)
    (hprev : (JSNum.parseFloat s.previousInput).isNaN = false)
    (hcur : JSNum.parseFloat s.currentInput = JSNum.fin 0) :
    calculate s = handleClear true { s with alerts := s.alerts ++ [divideMessage] } := by
  unfold calculate
  simp only [hcur, hprev, hop]
  rfl

/-- C12: with a pending `/`, a previous operand that parses to a number and a
current input that parses to zero, the equals key resets the calculator to its
initial state: `currentInput` is `"0"`, `previousInput` is empty, there is no
pending operation and `shouldResetDisplay` is false; the display shows `0` and
the division alert has been raised. -/
theorem handleEquals_divide_by_zero (s : Calculator) (hop : s.operation = some Op.div)
    (hprev : (JSNum.parseFloat s.previousInput).isNaN = false)
    (hcur : JSNum.parseFloat s.currentInput = JSNum.fin 0) :
    (handleEquals s).currentInput = "0" ∧ (handleEquals s).previousInput = "" ∧
    (handleEquals s).operation = none ∧ (handleEquals s).shouldResetDisplay = false ∧
    (handleEquals s).display = init.display ∧
    (handleEquals s).alerts = s.alerts ++ [divideMessage] := by
  have hcalc := calculate_divide_by_zero s hop hprev hcur
  have he : handleEquals s = { calculate s with operation := none } := by
    unfold handleEquals
    rw [if_pos]
    rw [hop]
    exact Option.some_ne_none _
  rw [he, hcalc]
  exact ⟨rfl, rfl, rfl, rfl, rfl, rfl⟩

/-- The example of C12: `5 / 0 =` ends in the initial state. -/
theorem handleEquals_divide_by_zero_witness :
    (run [Key.digit 5, Key.op Op.div, Key.digit 0] init).operation = some Op.div ∧
    (handleEquals (run [Key.digit 5, Key.op Op.div, Key.digit 0] init)).currentInput = "0" ∧
    (handleEquals (run [Key.digit 5, Key.op Op.div, Key.digit 0] init)).previousInput = "" ∧
    (handleEquals (run [Key.digit 5, Key.op Op.div, Key.digit 0] init)).operation = none ∧
    (handleEquals (run [Key.digit 5, Key.op Op.div, Key.digit 0] init)).shouldResetDisplay
      = false := by
  have h := handleEquals_divide_by_zero (run [Key.digit 5, Key.op Op.div, Key.digit 0] init)
    (by decide!) (by decide!) (by decide!)
  exact ⟨by decide!, h.1, h.2.1, h.2.2.1, h.2.2.2.1⟩

/-- With a pending `/` and a zero divisor, an operator key does reset the
calculator inside `calculate`, but `handleOperation` then goes on: the
operand `"0"` is stored as previous operand, the key becomes the pending
operation and `shouldResetDisplay` is set. -/
theorem handleOperation_after_reset (op : Op) (s : Calculator)
    (hop : s.operation = some Op.div)
    (hprev : (JSNum.parseFloat s.previousInput).isNaN = false)
    (hcur : JSNum.parseFloat s.currentInput = JSNum.fin 0) :
    (handleOperation op s).currentInput = "0" ∧ (handleOperation op s).previousInput = "0" ∧
    (handleOperation op s).operation = some op ∧
    (handleOperation op s).shouldResetDisplay = true ∧
    (handleOperation op s).alerts = s.alerts ++ [divideMessage] := by
  have hcalc := calculate_divide_by_zero s hop hprev hcur
  have hne : s.operation ≠ none := by rw [hop]; exact Option.some_ne_none _
  unfold handleOperation
  rw [if_pos hne, hcalc]
  exact ⟨rfl, rfl, rfl, rfl, rfl⟩

/-- C13, evaluated on `5 / 0 +`: after the `+` key the calculator is not in its
initial state: the previous operand is `"0"`, the pending operation is `+` and
`shouldResetDisplay` is true. -/
theorem operator_after_divide_by_zero :
    run [Key.digit 5, Key.op Op.div, Key.digit 0, Key.op Op.add] init =
      { currentInput := "0", previousInput := "0", operation := some Op.add,
        shouldResetDisplay := true, display := "0", alerts := [divideMessage] } ∧
    init = { currentInput := "0", previousInput := "", operation := none,
             shouldResetDisplay := false, display := "0", alerts := [] } ∧
    (run [Key.digit 5, Key.op Op.div, Key.digit 0, Key.op Op.add, Key.digit 3, Key.equals]
      init).currentInput = "3" := by
  decide!

/-- C14, evaluated on the value 1234 entered digit by digit: `currentInput` is
`"1234"`, the display shows `1,234`, and the handler, which reads the display,
finds it not numeric: the amount field keeps its value and the alert is
raised.  A value below 1000 is handed over. -/
theorem useCalcResult_grouped_display :
    (run (digitKeys [1, 2, 3, 4]) init).currentInput = "1234" ∧
    (run (digitKeys [1, 2, 3, 4]) init).display = "1,234" ∧
    (JSNum.toNumber "1,234").isNaN = true ∧
    useCalcResult (run (digitKeys [1, 2, 3, 4]) init).display "" = ("", [useResultMessage]) ∧
    useCalcResult (run (digitKeys [1, 2, 3]) init).display "" = ("123", []) := by
  decide!

/-! ## The calculator: chained operations -/

/-- C11 as stated fails: `94906267 * 94906267` followed by an operator key
shows `9007199515875288`, while the product is `9007199515875289`, which is
not a double. -/
theorem chain_product_inexact :
    (run (digitKeys [9, 4, 9, 0, 6, 2, 6, 7] ++ [Key.op Op.mul] ++
        digitKeys [9, 4, 9, 0, 6, 2, 6, 7] ++ [Key.op Op.add]) init).currentInput
      = "9007199515875288" ∧
    exactOp Op.mul (digitsValue [9, 4, 9, 0, 6, 2, 6, 7]) (digitsValue [9, 4, 9, 0, 6, 2, 6, 7])
      = 9007199515875289 ∧
    (run (digitKeys [9, 4, 9, 0, 6, 2, 6, 7] ++ [Key.op Op.mul] ++
        digitKeys [9, 4, 9, 0, 6, 2, 6, 7] ++ [Key.op Op.add]) init).currentInput
      ≠ intString (exactOp Op.mul (digitsValue [9, 4, 9, 0, 6, 2, 6, 7])
          (digitsValue [9, 4, 9, 0, 6, 2, 6, 7])) := by
  decide!

/-- The rounding step of line 719 is not exact from `23058430093` on:
`23058430093 + 0` followed by an operator key shows `23058430092.999996`. -/
theorem chain_rounding_inexact :
    (run (digitKeys [2, 3, 0, 5, 8, 4, 3, 0, 0, 9, 3] ++ [Key.op Op.add, Key.digit 0,
        Key.op Op.add]) init).currentInput = "23058430092.999996" ∧
    roundResult (JSNum.fin 23058430093) = JSNum.fin (6044629098299391 / 262144) ∧
    roundResult (JSNum.fin 23058430092) = JSNum.fin 23058430092 := by
  decide!

/-- The result of `+`, `-` or `*` on two integer operands, when its absolute
value is at most `23058430092`: `calculate` shows its decimal writing and sets
`shouldResetDisplay`. -/
theorem calculate_exact (s : Calculator) (op : Op) (a b : Int)
    (hop : s.operation = some op) (hnd : op ≠ Op.div)
    (hp : JSNum.parseFloat s.previousInput = JSNum.fin (a : ℚ))
    (hc : JSNum.parseFloat s.currentInput = JSNum.fin (b : ℚ))
    (hr : (exactOp op a b).natAbs ≤ 23058430092) :
    (calculate s).currentInput = intString (exactOp op a b) ∧
    (calculate s).shouldResetDisplay = true ∧
    (calculate s).previousInput = s.previousInput ∧
    (calculate s).operation = s.operation ∧
    (calculate s).alerts = s.alerts := by
  have h53 : (2 : Nat) ^ 53 = 9007199254740992 := by decide
  have hres : ∀ r : Int, r.natAbs ≤ 23058430092 →
      (roundResult (JSNum.roundDouble (r : ℚ))).toString = intString r := by
    intro r hr'
    have hsmall : r.natAbs < 2 ^ 53 := by rw [h53]; omega
    rw [JSNum.roundDouble_int_small r hsmall, roundResult_int r hr', toString_int r hsmall]
  cases op with
  | div => exact absurd rfl hnd
  | add =>
    have hcalc : calculate s = updateDisplay { s with
        currentInput := (roundResult ((JSNum.fin (a : ℚ)).add (JSNum.fin (b : ℚ)))).toString,
        shouldResetDisplay := true } := by
      unfold calculate
      simp only [hp, hc, hop, JSNum.isNaN, Bool.or_self, Bool.false_eq_true, if_false]
    have hcast : (a : ℚ) + (b : ℚ) = ((a + b : Int) : ℚ) := by push_cast; rfl
    rw [hcalc, updateDisplay_currentInput, updateDisplay_shouldResetDisplay,
      updateDisplay_previousInput, updateDisplay_operation, updateDisplay_alerts]
    refine ⟨?_, rfl, rfl, rfl, rfl⟩
    show (roundResult ((JSNum.fin (a : ℚ)).add (JSNum.fin (b : ℚ)))).toString = _
    rw [JSNum.add_fin, hcast]
    exact hres _ hr
  | sub =>
    have hcalc : calculate s = updateDisplay { s with
        currentInput := (roundResult ((JSNum.fin (a : ℚ)).sub (JSNum.fin (b : ℚ)))).toString,
        shouldResetDisplay := true } := by
      unfold calculate
      simp only [hp, hc, hop, JSNum.isNaN, Bool.or_self, Bool.false_eq_true, if_false]
    have hcast : (a : ℚ) + -(b : ℚ) = ((a - b : Int) : ℚ) := by push_cast; ring
    rw [hcalc, updateDisplay_currentInput, updateDisplay_shouldResetDisplay,
      updateDisplay_previousInput, updateDisplay_operation, updateDisplay_alerts]
    refine ⟨?_, rfl, rfl, rfl, rfl⟩
    show (roundResult ((JSNum.fin (a : ℚ)).sub (JSNum.fin (b : ℚ)))).toString = _
    rw [JSNum.sub_fin, hcast]
    exact hres _ hr
  | mul =>
    have hcalc : calculate s = updateDisplay { s with
        currentInput := (roundResult ((JSNum.fin (a : ℚ)).mul (JSNum.fin (b : ℚ)))).toString,
        shouldResetDisplay := true } := by
      unfold calculate
      simp only [hp, hc, hop, JSNum.isNaN, Bool.or_self, Bool.false_eq_true, if_false]
    have hcast : (a : ℚ) * (b : ℚ) = ((a * b : Int) : ℚ) := by push_cast; rfl
    rw [hcalc, updateDisplay_currentInput, updateDisplay_shouldResetDisplay,
      updateDisplay_previousInput, updateDisplay_operation, updateDisplay_alerts]
    refine ⟨?_, rfl, rfl, rfl, rfl⟩
    show (roundResult ((JSNum.fin (a : ℚ)).mul (JSNum.fin (b : ℚ)))).toString = _
    rw [JSNum.mul_fin, hcast]
    exact hres _ hr

theorem handleOperation_none (op : Op) (s : Calculator) (h : s.operation = none) :
    handleOperation op s =
      { s with previousInput := s.currentInput, operation := some op,
               shouldResetDisplay := true } := by
  unfold handleOperation
  simp only [h, ne_eq, not_true_eq_false, if_false]

theorem handleOperation_some (op : Op) (s : Calculator) (h : s.operation ≠ none) :
    handleOperation op s =
      { calculate s with previousInput := (calculate s).currentInput, operation := some op,
                         shouldResetDisplay := true } := by
  unfold handleOperation
  rw [if_pos h]

theorem handleEquals_some (s : Calculator) (h : s.operation ≠ none) :
    handleEquals s = { calculate s with operation := none } := by
  unfold handleEquals
  rw [if_pos h]

theorem run_singleton (k : Key) (s : Calculator) : run [k] s = handleButtonClick k s := rfl

/-- C11 as amended: chaining is left to right.  From the initial state, for
operands `a`, `b`, `c` keyed in as non-empty sequences of at most 12 digits and
operators `op1`, `op2` among `+`, `-`, `*` such that `a op1 b` and
`(a op1 b) op2 c` are at most `23058430092` in absolute value, the input shows
`a op1 b` once `op2` is pressed, and after `c` and `=` it shows
`(a op1 b) op2 c` and no operation is pending. -/
theorem chain_left_to_right (da db dc : List (Fin 10)) (op1 op2 : Op)
    (ha : da ≠ []) (hal : da.length ≤ 12) (hb : db ≠ []) (hbl : db.length ≤ 12)
    (hc : dc ≠ []) (hcl : dc.length ≤ 12) (h1 : op1 ≠ Op.div) (h2 : op2 ≠ Op.div)
    (hr1 : (exactOp op1 (digitsValue da) (digitsValue db)).natAbs ≤ 23058430092)
    (hr2 : (exactOp op2 (exactOp op1 (digitsValue da) (digitsValue db))
      (digitsValue dc)).natAbs ≤ 23058430092) :
    (run (digitKeys da ++ [Key.op op1] ++ digitKeys db ++ [Key.op op2]) init).currentInput
      = intString (exactOp op1 (digitsValue da) (digitsValue db)) ∧
    (run (digitKeys da ++ [Key.op op1] ++ digitKeys db ++ [Key.op op2] ++ digitKeys dc ++
        [Key.equals]) init).currentInput
      = intString (exactOp op2 (exactOp op1 (digitsValue da) (digitsValue db))
          (digitsValue dc)) ∧
    (run (digitKeys da ++ [Key.op op1] ++ digitKeys db ++ [Key.op op2] ++ digitKeys dc ++
        [Key.equals]) init).operation = none := by
  have h53 : (2 : Nat) ^ 53 = 9007199254740992 := by decide
  -- the first operand
  obtain ⟨p1, _, v1, o1, _⟩ := enter_number da init ha hal (Or.inr ⟨rfl, rfl⟩)
  have o1' : (run (digitKeys da) init).operation = none := o1
  -- the first operator
  have e2 := handleOperation_none op1 (run (digitKeys da) init) o1'
  -- the second operand
  obtain ⟨p3, _, v3, o3, _⟩ := enter_number db (handleOperation op1 (run (digitKeys da) init))
    hb hbl (Or.inl (by rw [e2]))
  have v3' : (run (digitKeys db) (handleOperation op1 (run (digitKeys da) init))).previousInput
      = (run (digitKeys da) init).currentInput := by rw [v3, e2]
  have o3' : (run (digitKeys db) (handleOperation op1 (run (digitKeys da) init))).operation
      = some op1 := by rw [o3, e2]
  -- the second operator evaluates the first
  obtain ⟨c1, _, _, _, _⟩ := calculate_exact
    (run (digitKeys db) (handleOperation op1 (run (digitKeys da) init))) op1
    (digitsValue da) (digitsValue db) o3' h1 (by rw [v3', p1]) p3 hr1
  have hne3 : (run (digitKeys db) (handleOperation op1 (run (digitKeys da) init))).operation
      ≠ none := by rw [o3']; exact Option.some_ne_none _
  have e4 := handleOperation_some op2 _ hne3
  have hrun4 : run (digitKeys da ++ [Key.op op1] ++ digitKeys db ++ [Key.op op2]) init
      = handleOperation op2 (run (digitKeys db)
          (handleOperation op1 (run (digitKeys da) init))) := by
    rw [run_append, run_append, run_append, run_singleton, run_singleton]
    rfl
  have cur4 : (handleOperation op2 (run (digitKeys db)
      (handleOperation op1 (run (digitKeys da) init)))).currentInput
      = intString (exactOp op1 (digitsValue da) (digitsValue db)) := by
    rw [e4]; exact c1
  have prev4 : (handleOperation op2 (run (digitKeys db)
      (handleOperation op1 (run (digitKeys da) init)))).previousInput
      = intString (exactOp op1 (digitsValue da) (digitsValue db)) := by
    rw [e4]; exact c1
  have op4 : (handleOperation op2 (run (digitKeys db)
      (handleOperation op1 (run (digitKeys da) init)))).operation = some op2 := by
    rw [e4]
  have flag4 : (handleOperation op2 (run (digitKeys db)
      (handleOperation op1 (run (digitKeys da) init)))).shouldResetDisplay = true := by
    rw [e4]
  -- the third operand
  obtain ⟨p5, _, v5, o5, _⟩ := enter_number dc _ hc hcl (Or.inl flag4)
  rw [prev4] at v5
  rw [op4] at o5
  -- equals evaluates the second operation
  have hsmall : (exactOp op1 (digitsValue da) (digitsValue db)).natAbs < 2 ^ 53 := by
    rw [h53]; omega
  obtain ⟨c6, _, _, _, _⟩ := calculate_exact _ op2
    (exactOp op1 (digitsValue da) (digitsValue db)) (digitsValue dc) o5 h2
    (by rw [v5]; exact parseFloat_intString _ hsmall) p5 hr2
  have hne5 : (run (digitKeys dc) (handleOperation op2 (run (digitKeys db)
      (handleOperation op1 (run (digitKeys da) init))))).operation ≠ none := by
    rw [o5]; exact Option.some_ne_none _
  have e6 := handleEquals_some _ hne5
  have hrun6 : run (digitKeys da ++ [Key.op op1] ++ digitKeys db ++ [Key.op op2] ++
      digitKeys dc ++ [Key.equals]) init
      = handleEquals (run (digitKeys dc) (handleOperation op2 (run (digitKeys db)
          (handleOperation op1 (run (digitKeys da) init))))) := by
    rw [run_append, run_append, hrun4, run_singleton]
    rfl
  refine ⟨?_, ?_, ?_⟩
  · rw [hrun4]; exact cur4
  · rw [hrun6, e6]; exact c6
  · rw [hrun6, e6]

/-- The example of C11: `2 + 3 * 4 =` shows 5 when `*` is pressed and ends
with 20, not 14, and no pending operation. -/
theorem chain_left_to_right_witness :
    (run (digitKeys [2] ++ [Key.op Op.add] ++ digitKeys [3] ++ [Key.op Op.mul]) init
      ).currentInput = "5" ∧
    (run (digitKeys [2] ++ [Key.op Op.add] ++ digitKeys [3] ++ [Key.op Op.mul] ++
      digitKeys [4] ++ [Key.equals]) init).currentInput = "20" ∧
    (run (digitKeys [2] ++ [Key.op Op.add] ++ digitKeys [3] ++ [Key.op Op.mul] ++
      digitKeys [4] ++ [Key.equals]) init).operation = none := by
  obtain ⟨h1, h2, h3⟩ := chain_left_to_right [2] [3] [4] Op.add Op.mul (by decide) (by decide)
    (by decide) (by decide) (by decide) (by decide) (by decide) (by decide) (by decide)
    (by decide)
  have e1 : intString (exactOp Op.add (digitsValue [2]) (digitsValue [3])) = "5" := by decide
  have e2 : intString (exactOp Op.mul (exactOp Op.add (digitsValue [2]) (digitsValue [3]))
      (digitsValue [4])) = "20" := by decide
  rw [e1] at h1
  rw [e2] at h2
  exact ⟨h1, h2, h3⟩

end Calculator

end Ledger
